import Mathlib

/-!
Verification of the pipeline repository's status-synthesis engine and
affinity-assistant naming against its specification.

The status engine (`MakeTaskRunStatus` and its helpers) ships in this
repository only through its test suite (`src/pkg/pod/status_test.go`), so the
engine itself is modelled from the specification, with every behaviour that the
test suite pins (expected statuses, messages, orderings) reproduced exactly.
`GetAffinityAssistantName` is embedded directly from
`src/pkg/reconciler/pipelinerun/affinity_assistant.go`, including an executable
SHA-256.
-/

namespace Pipeline

/-! ### Generic list helpers (executable, structural recursion only) -/

/-- Concat-map, defined recursively so that proofs can proceed by induction. -/
def listFlat : List α → (α → List β) → List β
  | [], _ => []
  | a :: l, f => f a ++ listFlat l f

/-- `strings.HasPrefix`, over character lists so it is kernel-reducible. -/
def strStartsWith (s pre : String) : Bool := List.isPrefixOf pre.data s.data

/-- Drop the first `n` characters of a string. -/
def strDrop (s : String) (n : Nat) : String := String.mk (s.data.drop n)

/-- Split at the first occurrence of a character: the part before it and the
part after it, or `none` when the character does not occur. -/
def splitFirstChar (c : Char) : List Char → Option (List Char × List Char)
  | [] => none
  | a :: rest =>
      if a = c then some ([], rest)
      else (splitFirstChar c rest).map (fun p => (a :: p.1, p.2))

/-- Split a character list on every occurrence of a separator character. -/
def splitOnChar (c : Char) : List Char → List (List Char)
  | [] => [[]]
  | a :: rest =>
      match splitOnChar c rest with
      | [] => if a = c then [[], []] else [[a]]
      | h :: t => if a = c then [] :: h :: t else (a :: h) :: t

/-- `strings.Contains`, over character lists. -/
def containsSub (pat : List Char) : List Char → Bool
  | [] => List.isPrefixOf pat []
  | a :: rest => List.isPrefixOf pat (a :: rest) || containsSub pat rest

/-! ### SHA-256 over byte lists (bytes and 32-bit words as `Nat`) -/

namespace SHA256

/-- `2^32`, the modulus for 32-bit words. -/
def M32 : Nat := 4294967296

/-- Addition modulo `2^32`. -/
def add32 (x y : Nat) : Nat := (x + y) % M32

/-- Right rotation of a 32-bit word (words are kept `< 2^32`). -/
def rotr (n x : Nat) : Nat := ((x >>> n) ||| ((x <<< (32 - n)) % M32))

/-- Bitwise complement of a 32-bit word. -/
def not32 (x : Nat) : Nat := x ^^^ (M32 - 1)

/-- The eight working variables of the compression function. -/
structure Hash8 where
  a : Nat
  b : Nat
  c : Nat
  d : Nat
  e : Nat
  f : Nat
  g : Nat
  h : Nat

/-- Initial hash value (fractional parts of square roots of the first primes). -/
def H0 : Hash8 :=
  ⟨1779033703, 3144134277, 1013904242, 2773480762,
   1359893119, 2600822924, 528734635, 1541459225⟩

/-- Round constants (fractional parts of cube roots of the first 64 primes). -/
def K : List Nat :=
  [1116352408, 1899447441, 3049323471, 3921009573, 961987163, 1508970993,
   2453635748, 2870763221, 3624381080, 310598401, 607225278, 1426881987,
   1925078388, 2162078206, 2614888103, 3248222580, 3835390401, 4022224774,
   264347078, 604807628, 770255983, 1249150122, 1555081692, 1996064986,
   2554220882, 2821834349, 2952996808, 3210313671, 3336571891, 3584528711,
   113926993, 338241895, 666307205, 773529912, 1294757372, 1396182291,
   1695183700, 1986661051, 2177026350, 2456956037, 2730485921, 2820302411,
   3259730800, 3345764771, 3516065817, 3600352804, 4094571909, 275423344,
   430227734, 506948616, 659060556, 883997877, 958139571, 1322822218,
   1537002063, 1747873779, 1955562222, 2024104815, 2227730452, 2361852424,
   2428436474, 2756734187, 3204031479, 3329325298]

/-- Group a byte list into big-endian 32-bit words (length assumed `≡ 0 [MOD 4]`). -/
def words16 : List Nat → List Nat
  | b0 :: b1 :: b2 :: b3 :: rest =>
      (((b0 * 256 + b1) * 256 + b2) * 256 + b3) :: words16 rest
  | _ => []

/-- One message-schedule extension step appended to the word list. -/
def schedStep (w : List Nat) : List Nat :=
  let i := w.length
  let w15 := w.getD (i - 15) 0
  let w2 := w.getD (i - 2) 0
  let s0 := (rotr 7 w15) ^^^ (rotr 18 w15) ^^^ (w15 >>> 3)
  let s1 := (rotr 17 w2) ^^^ (rotr 19 w2) ^^^ (w2 >>> 10)
  w ++ [add32 (add32 (w.getD (i - 16) 0) s0) (add32 (w.getD (i - 7) 0) s1)]

/-- Extend the 16 block words to the 64 scheduled words. -/
def sched : Nat → List Nat → List Nat
  | 0, w => w
  | n + 1, w => sched n (schedStep w)

/-- A single SHA-256 round for scheduled word `wi` and constant `ki`. -/
def round (st : Hash8) (wk : Nat × Nat) : Hash8 :=
  let s1 := (rotr 6 st.e) ^^^ (rotr 11 st.e) ^^^ (rotr 25 st.e)
  let ch := (st.e &&& st.f) ^^^ ((not32 st.e) &&& st.g)
  let t1 := add32 (add32 st.h s1) (add32 (add32 ch wk.2) wk.1)
  let s0 := (rotr 2 st.a) ^^^ (rotr 13 st.a) ^^^ (rotr 22 st.a)
  let maj := (st.a &&& st.b) ^^^ (st.a &&& st.c) ^^^ (st.b &&& st.c)
  let t2 := add32 s0 maj
  ⟨add32 t1 t2, st.a, st.b, st.c, add32 st.d t1, st.e, st.f, st.g⟩

/-- Compression of one 64-byte block into the running hash. -/
def compress (st : Hash8) (block : List Nat) : Hash8 :=
  let w := sched 48 (words16 block)
  let r := (w.zip K).foldl round st
  ⟨add32 st.a r.a, add32 st.b r.b, add32 st.c r.c, add32 st.d r.d,
   add32 st.e r.e, add32 st.f r.f, add32 st.g r.g, add32 st.h r.h⟩

/-- Fold the compression over consecutive 64-byte blocks (fuel-driven so the
definition is structural and kernel-reducible). -/
def processBlocks : Nat → Hash8 → List Nat → Hash8
  | 0, st, _ => st
  | _ + 1, st, [] => st
  | fuel + 1, st, l => processBlocks fuel (compress st (l.take 64)) (l.drop 64)

/-- Big-endian bytes of a 32-bit word. -/
def toBytesBE (x : Nat) : List Nat :=
  [(x >>> 24) % 256, (x >>> 16) % 256, (x >>> 8) % 256, x % 256]

/-- Merkle–Damgård padding: `0x80`, zero fill to 56 mod 64, 64-bit bit length. -/
def pad (msg : List Nat) : List Nat :=
  let padLen := (64 + 55 - (msg.length % 64)) % 64
  let bitLen := msg.length * 8
  msg ++ [128] ++ List.replicate padLen 0 ++
    [(bitLen >>> 56) % 256, (bitLen >>> 48) % 256, (bitLen >>> 40) % 256,
     (bitLen >>> 32) % 256, (bitLen >>> 24) % 256, (bitLen >>> 16) % 256,
     (bitLen >>> 8) % 256, bitLen % 256]

/-- SHA-256 digest (32 bytes) of a byte list. -/
def sha256 (msg : List Nat) : List Nat :=
  let padded := pad msg
  let st := processBlocks (padded.length / 64 + 1) H0 padded
  listFlat [st.a, st.b, st.c, st.d, st.e, st.f, st.g, st.h] toBytesBE

end SHA256

/-- Lowercase hexadecimal digit for `n < 16`. -/
def hexChar (n : Nat) : Char :=
  if n < 10 then Char.ofNat (48 + n) else Char.ofNat (87 + n)

/-- Lowercase hex encoding of a byte list (`fmt.Sprintf("%x", ...)`). -/
def hexOfBytes (bs : List Nat) : List Char :=
  listFlat bs (fun b => [hexChar ((b / 16) % 16), hexChar (b % 16)])

/-- UTF-8 encoding of a single character, as bytes. -/
def utf8EncodeChar (c : Char) : List Nat :=
  let n := c.toNat
  if n < 128 then [n]
  else if n < 2048 then [192 + n / 64, 128 + n % 64]
  else if n < 65536 then [224 + n / 4096, 128 + (n / 64) % 64, 128 + n % 64]
  else [240 + n / 262144, 128 + (n / 4096) % 64, 128 + (n / 64) % 64, 128 + n % 64]

/-- UTF-8 bytes of a string (Go's `[]byte(s)`). -/
def utf8Bytes (s : String) : List Nat :=
  listFlat s.data utf8EncodeChar

/-- `workspace.ComponentNameAffinityAssistant` from `pkg/workspace`
(not under `src/`; its exact value is immaterial to the claims). -/
def ComponentNameAffinityAssistant : String := "affinity-assistant"

/-- `GetAffinityAssistantName` from
`src/pkg/reconciler/pipelinerun/affinity_assistant.go`: the component name,
a hyphen, and the first 10 hex characters of SHA-256 of the concatenation. -/
def GetAffinityAssistantName (pipelineWorkspaceName : String) (pipelineRunName : String) : String :=
  let hashString := hexOfBytes (SHA256.sha256 (utf8Bytes (pipelineWorkspaceName ++ pipelineRunName)))
  ComponentNameAffinityAssistant ++ "-" ++ String.mk (hashString.take 10)

/-! ### A small JSON value type and an executable parser

The termination-message wire format is a JSON array of flat objects
(`{"key": string, "value": string, "type": int|string, "resourceName"?: string}`),
and result values may additionally be JSON arrays of strings or string-to-string
objects.  The parser below is fuel-driven (fuel bounded by the input length) so
every definition is structural and kernel-reducible. -/

/-- Characters that are awkward to write as literals under the file style. -/
def quoteC : Char := Char.ofNat 34

/-- Backslash character. -/
def bslashC : Char := Char.ofNat 92

/-- Left curly brace. -/
def lbraceC : Char := Char.ofNat 123

/-- Right curly brace. -/
def rbraceC : Char := Char.ofNat 125

/-- JSON values. -/
inductive Json where
  | jstr (s : String)
  | jnum (n : Int)
  | jbool (b : Bool)
  | jnull
  | jarr (xs : List Json)
  | jobj (fs : List (String × Json))

/-- Drop JSON whitespace. -/
def skipWs : List Char → List Char
  | c :: rest =>
      if c = ' ' ∨ c = '\n' ∨ c = '\t' ∨ c = '\r' then skipWs rest else c :: rest
  | [] => []

/-- Value of a hexadecimal digit. -/
def hexVal (c : Char) : Option Nat :=
  if '0' ≤ c ∧ c ≤ '9' then some (c.toNat - 48)
  else if 'a' ≤ c ∧ c ≤ 'f' then some (c.toNat - 87)
  else if 'A' ≤ c ∧ c ≤ 'F' then some (c.toNat - 70)
  else none

/-- Parse the body of a JSON string after the opening quote; returns the
decoded string and the input remaining after the closing quote. -/
def parseStringBody (acc : List Char) : List Char → Option (String × List Char)
  | [] => none
  | c :: rest =>
      if c = quoteC then some (String.mk acc.reverse, rest)
      else if c = bslashC then
        match rest with
        | [] => none
        | e :: rest2 =>
            if e = quoteC then parseStringBody (quoteC :: acc) rest2
            else if e = bslashC then parseStringBody (bslashC :: acc) rest2
            else if e = '/' then parseStringBody ('/' :: acc) rest2
            else if e = 'n' then parseStringBody ('\n' :: acc) rest2
            else if e = 't' then parseStringBody ('\t' :: acc) rest2
            else if e = 'r' then parseStringBody ('\r' :: acc) rest2
            else if e = 'b' then parseStringBody (Char.ofNat 8 :: acc) rest2
            else if e = 'f' then parseStringBody (Char.ofNat 12 :: acc) rest2
            else if e = 'u' then
              match rest2 with
              | h1 :: h2 :: h3 :: h4 :: rest3 =>
                  match hexVal h1, hexVal h2, hexVal h3, hexVal h4 with
                  | some a, some b, some c', some d =>
                      parseStringBody (Char.ofNat (((a * 16 + b) * 16 + c') * 16 + d) :: acc) rest3
                  | _, _, _, _ => none
              | _ => none
            else none
      else parseStringBody (c :: acc) rest

/-- Parse a JSON integer (fractions are not part of the wire format). -/
def parseNum (cs : List Char) : Option (Json × List Char) :=
  let p : Bool × List Char :=
    match cs with
    | c :: rest => if c = '-' then (true, rest) else (false, cs)
    | [] => (false, cs)
  let digits := p.2.takeWhile Char.isDigit
  if digits.isEmpty then none
  else
    let n : Nat := digits.foldl (fun acc c => acc * 10 + (c.toNat - 48)) 0
    some (.jnum (if p.1 then -(n : Int) else (n : Int)), p.2.drop digits.length)

mutual

/-- Parse one JSON value; `fuel` bounds the recursion depth. -/
def parseVal : Nat → List Char → Option (Json × List Char)
  | 0, _ => none
  | fuel + 1, cs =>
      match skipWs cs with
      | [] => none
      | c :: rest =>
          if c = quoteC then
            (parseStringBody [] rest).map (fun p => (.jstr p.1, p.2))
          else if c = '[' then
            match skipWs rest with
            | c2 :: r2 =>
                if c2 = ']' then some (.jarr [], r2)
                else (parseItems fuel rest).map (fun p => (.jarr p.1, p.2))
            | [] => none
          else if c = lbraceC then
            match skipWs rest with
            | c2 :: r2 =>
                if c2 = rbraceC then some (.jobj [], r2)
                else (parseFields fuel rest).map (fun p => (.jobj p.1, p.2))
            | [] => none
          else
            match c :: rest with
            | 't' :: 'r' :: 'u' :: 'e' :: r => some (.jbool true, r)
            | 'f' :: 'a' :: 'l' :: 's' :: 'e' :: r => some (.jbool false, r)
            | 'n' :: 'u' :: 'l' :: 'l' :: r => some (.jnull, r)
            | other => parseNum other

/-- Parse the comma-separated items of a non-empty JSON array, including the
closing bracket. -/
def parseItems : Nat → List Char → Option (List Json × List Char)
  | 0, _ => none
  | fuel + 1, cs => do
      let (v, r) ← parseVal fuel cs
      match skipWs r with
      | c :: r2 =>
          if c = ',' then do
            let (xs, r3) ← parseItems fuel r2
            some (v :: xs, r3)
          else if c = ']' then some ([v], r2)
          else none
      | [] => none

/-- Parse the fields of a non-empty JSON object, including the closing brace. -/
def parseFields : Nat → List Char → Option (List (String × Json) × List Char)
  | 0, _ => none
  | fuel + 1, cs =>
      match skipWs cs with
      | c :: rest =>
          if c = quoteC then do
            let (k, r) ← parseStringBody [] rest
            match skipWs r with
            | c2 :: r2 =>
                if c2 = ':' then do
                  let (v, r3) ← parseVal fuel r2
                  match skipWs r3 with
                  | c3 :: r4 =>
                      if c3 = ',' then do
                        let (fs, r5) ← parseFields fuel r4
                        some ((k, v) :: fs, r5)
                      else if c3 = rbraceC then some ([(k, v)], r4)
                      else none
                  | [] => none
                else none
            | [] => none
          else none
      | [] => none

end

/-- Parse a whole string as a single JSON value. -/
def parseJson (s : String) : Option Json :=
  match parseVal (2 * s.length + 4) s.data with
  | some (v, r) => if skipWs r = [] then some v else none
  | none => none

/-! ### Run Result records (`pkg/result`) -/

/-- `result.TaskRunResultType`: a legacy free-form task result. -/
def TaskRunResultType : Nat := 1

/-- `result.InternalTektonResultType`: internal-only metadata, never surfaced. -/
def InternalTektonResultType : Nat := 3

/-- `result.StepResultType`: a declared step result. -/
def StepResultType : Nat := 4

/-- `result.StepArtifactsResultType`: a structured-artifacts payload. -/
def StepArtifactsResultType : Nat := 5

/-- A decoded Run Result record (`result.RunResult`). -/
structure RunResult where
  key : String := ""
  value : String := ""
  resourceName : String := ""
  resultType : Nat := 0
deriving DecidableEq, Repr

/-- The zero record; Go erases these after decoding a termination message. -/
def emptyRunResult : RunResult := ⟨"", "", "", 0⟩

/-- Go-style map field lookup on a decoded object (duplicate keys: last wins). -/
def getField (fs : List (String × Json)) (k : String) : Option Json :=
  (fs.filter (fun f => f.1 == k)).getLast?.map (fun f => f.2)

/-- Decode the `type` field: a small integer code or a string alias
(legacy wire compatibility), unknown aliases mapping to the zero code. -/
def jsonToResultType : Json → Option Nat
  | .jnum n => some n.toNat
  | .jstr s =>
      if s = "TaskRunResult" then some TaskRunResultType
      else if s = "InternalTektonResult" then some InternalTektonResultType
      else if s = "StepResult" then some StepResultType
      else if s = "StepArtifactsResult" then some StepArtifactsResultType
      else some 0
  | _ => none

/-- Decode one JSON object into a Run Result record.  Unknown fields are
ignored and missing fields default, as with Go's `encoding/json`. -/
def jsonToRunResult : Json → Option RunResult
  | .jobj fs => do
      let key ← match getField fs "key" with
        | none => some ""
        | some (.jstr s) => some s
        | some _ => none
      let value ← match getField fs "value" with
        | none => some ""
        | some (.jstr s) => some s
        | some _ => none
      let resourceName ← match getField fs "resourceName" with
        | none => some ""
        | some (.jstr s) => some s
        | some _ => none
      let resultType ← match getField fs "type" with
        | none => some 0
        | some j => jsonToResultType j
      some ⟨key, value, resourceName, resultType⟩
  | _ => none

/-- Decode a JSON value as an array of Run Result records. -/
def jsonToRunResults : Json → Option (List RunResult)
  | .jarr xs => xs.mapM jsonToRunResult
  | _ => none

/-- Raw decode of a termination message as a JSON Run Result array, in wire
order and including zero-valued records. -/
def parseMessageRaw (msg : String) : Option (List RunResult) :=
  (parseJson msg).bind jsonToRunResults

/-- Executable lexicographic order on character lists (by code point, which
agrees with Go's byte-wise string order on ASCII keys). -/
def charListLe : List Char → List Char → Bool
  | [], _ => true
  | _ :: _, [] => false
  | a :: as, b :: bs =>
      if a.toNat < b.toNat then true
      else if b.toNat < a.toNat then false
      else charListLe as bs

/-- Key order on records (ascending by key). -/
def keyLE (a b : RunResult) : Prop := charListLe a.key.data b.key.data = true

instance : DecidableRel keyLE := fun a b =>
  inferInstanceAs (Decidable (charListLe a.key.data b.key.data = true))

/-- Stable insertion sort by record key, ascending. -/
def sortByKey (l : List RunResult) : List RunResult := l.insertionSort keyLE

/-- Modelled from the spec: `termination.ParseMessage` (not under `src/`) —
decode the message as a JSON record array, erase zero-valued records, and sort
ascending by key; any malformed message is a decode failure. -/
def parseMessage (msg : String) : Option (List RunResult) :=
  (parseMessageRaw msg).map (fun rs => sortByKey (rs.filter (fun r => r != emptyRunResult)))

/-- Escape one character as Go's `encoding/json` marshaller does (HTML-unsafe
characters and controls become `\u00XX`). -/
def jsonEscapeChar (c : Char) : List Char :=
  if c = quoteC then [bslashC, quoteC]
  else if c = bslashC then [bslashC, bslashC]
  else if c = '\n' then [bslashC, 'n']
  else if c = '\r' then [bslashC, 'r']
  else if c = '\t' then [bslashC, 't']
  else if c.toNat < 32 ∨ c = '<' ∨ c = '>' ∨ c = '&' then
    [bslashC, 'u', '0', '0', hexChar ((c.toNat / 16) % 16), hexChar (c.toNat % 16)]
  else [c]

/-- A Go-JSON quoted string literal. -/
def jsonQuote (s : String) : String :=
  String.mk ([quoteC] ++ listFlat s.data jsonEscapeChar ++ [quoteC])

/-- Serialize one record as Go marshals `result.RunResult` (field order
`key`, `value`, `resourceName`, `type`; the latter two have `omitempty`). -/
def serializeRunResult (r : RunResult) : String :=
  String.mk [lbraceC] ++ jsonQuote "key" ++ ":" ++ jsonQuote r.key ++
    "," ++ jsonQuote "value" ++ ":" ++ jsonQuote r.value ++
    (if r.resourceName != "" then "," ++ jsonQuote "resourceName" ++ ":" ++ jsonQuote r.resourceName else "") ++
    (if r.resultType != 0 then "," ++ jsonQuote "type" ++ ":" ++ toString r.resultType else "") ++
    String.mk [rbraceC]

/-- Modelled from the spec: `createMessageFromResults` (not under `src/`) —
the filtered record list re-serialized as a JSON array, or the empty string
for no records. -/
def createMessageFromResults (rs : List RunResult) : String :=
  if rs.isEmpty then ""
  else "[" ++ String.intercalate "," (rs.map serializeRunResult) ++ "]"

/-! ### Typed result values (`v1.ParamValue` / `v1.ResultValue`) -/

/-- Declared result types. -/
inductive ResultsType where
  | string
  | array
  | object
deriving DecidableEq, Repr

/-- A decoded result value. -/
inductive ParamValue where
  | str (s : String)
  | arr (xs : List String)
  | obj (fs : List (String × String))
deriving DecidableEq, Repr

/-- The dynamic type of a decoded value. -/
def typeOfParamValue : ParamValue → ResultsType
  | .str _ => .string
  | .arr _ => .array
  | .obj _ => .object

/-- Decode a JSON value as an array of strings. -/
def jsonToStringArr : Json → Option (List String)
  | .jarr xs => xs.mapM (fun j => match j with | .jstr s => some s | _ => none)
  | _ => none

/-- Decode a JSON value as a string-to-string object. -/
def jsonToStringObj : Json → Option (List (String × String))
  | .jobj fs => fs.mapM (fun f => match f.2 with | .jstr s => some (f.1, s) | _ => none)
  | _ => none

/-- `v1.ParamValue.UnmarshalJSON` semantics: a value starting with `[` that
parses as a JSON string array is an array, one starting with `{` that parses
as a string map is an object, a JSON string literal is unquoted, and anything
else is the raw string itself. -/
def decodeParamValue (s : String) : ParamValue :=
  let tryStr : ParamValue :=
    match parseJson s with
    | some (.jstr v) => .str v
    | _ => .str s
  match s.data with
  | [] => .str ""
  | c :: _ =>
      if c = '[' then
        match (parseJson s).bind jsonToStringArr with
        | some xs => .arr xs
        | none => tryStr
      else if c = lbraceC then
        match (parseJson s).bind jsonToStringObj with
        | some fs => .obj fs
        | none => tryStr
      else tryStr

/-! ### Kubernetes-side data model (the subset the engine observes) -/

/-- Pod phases (`""` is the unset zero value). -/
inductive PodPhase where
  | pending
  | running
  | succeeded
  | failed
  | unknown
  | unset
deriving DecidableEq, Repr

/-- `corev1.ContainerStateWaiting`. -/
structure WaitingState where
  reason : String := ""
  message : String := ""
deriving DecidableEq, Repr

/-- `corev1.ContainerStateTerminated` (volatile timestamps omitted). -/
structure TerminatedState where
  exitCode : Int := 0
  reason : String := ""
  message : String := ""
deriving DecidableEq, Repr

/-- `corev1.ContainerState`: at most one of the three branches is populated;
the zero value has none. -/
structure KContainerState where
  waiting : Option WaitingState := none
  running : Bool := false
  terminated : Option TerminatedState := none
deriving DecidableEq, Repr

/-- `corev1.ContainerStatus`. -/
structure ContainerStatus where
  name : String := ""
  imageID : String := ""
  state : KContainerState := {}
  ready : Bool := false
deriving DecidableEq, Repr

/-- `corev1.PodCondition` (statuses kept as strings). -/
structure PodCondition where
  ctype : String := ""
  status : String := ""
  reason : String := ""
  message : String := ""
deriving DecidableEq, Repr

/-- The observed Pod: declared container order (authoritative), observed
statuses (unordered), coarse phase, and top-level diagnostics. -/
structure Pod where
  name : String := ""
  containers : List String := []
  initContainers : List String := []
  phase : PodPhase := .unset
  message : String := ""
  reason : String := ""
  conditions : List PodCondition := []
  containerStatuses : List ContainerStatus := []
  initContainerStatuses : List ContainerStatus := []
deriving DecidableEq, Repr

/-! ### Task-side data model -/

/-- A declared step result (name and declared type). -/
structure StepResult where
  name : String
  rtype : ResultsType := .string
deriving DecidableEq, Repr

/-- A declared task-level result; `valueExpr` carries the literal
`$(steps.<step>.results.<name>)` reference when the result is fed from a
step result. -/
structure TaskResult where
  name : String
  rtype : ResultsType := .string
  valueExpr : String := ""
deriving DecidableEq, Repr

/-- A declared step (name and its declared step results). -/
structure StepSpec where
  name : String := ""
  results : List StepResult := []
deriving DecidableEq, Repr

/-- The declared task schema consumed by the engine. -/
structure TaskSpec where
  results : List TaskResult := []
  steps : List StepSpec := []
deriving DecidableEq, Repr

/-- A surfaced (typed) result, used for both task and step results. -/
structure TaskRunResult where
  name : String
  rtype : ResultsType
  value : ParamValue
deriving DecidableEq, Repr

/-- A synthesized step state. -/
structure StepState where
  state : KContainerState
  name : String
  container : String
  imageID : String
  results : List TaskRunResult
  terminationReason : String
deriving DecidableEq, Repr

/-- A synthesized sidecar state. -/
structure SidecarState where
  state : KContainerState
  name : String
  container : String
  imageID : String
deriving DecidableEq, Repr

/-- Tri-state truth value of the success condition. -/
inductive ConditionStatus where
  | ctrue
  | cfalse
  | cunknown
deriving DecidableEq, Repr

/-- The single top-level success condition. -/
structure Condition where
  status : ConditionStatus
  reason : String
  message : String
deriving DecidableEq, Repr

/-- Whether a condition is terminal (Succeeded or Failed). -/
def conditionTerminal : Option Condition → Bool
  | some c => c.status == .ctrue || c.status == .cfalse
  | none => false

/-- The synthesized TaskRun status.  Wall-clock timestamps are modelled as
presence booleans (the tests compare them only for nil-ness). -/
structure TaskRunStatus where
  condition : Option Condition := none
  startTimeSet : Bool := false
  completionTimeSet : Bool := false
  podName : String := ""
  steps : List StepState := []
  sidecars : List SidecarState := []
  results : List TaskRunResult := []
deriving DecidableEq, Repr

/-- The owning TaskRun (prior status is read for carry-forward fields;
`onErrorContinue` models the continue-on-error annotation). -/
structure TaskRun where
  name : String := ""
  onErrorContinue : Bool := false
  status : TaskRunStatus := {}
deriving DecidableEq, Repr

/-- Engine errors.  Decode-class errors aggregate; fetch-class errors are
fatal to the pass. -/
inductive StatusError where
  | sizeExceeded
  | invalidSidecarResult (line : String)
  | invalidStepResultKey (key : String)
  | terminationMessageNotJson (container : String) (message : String)
deriving DecidableEq, Repr

/-- Result-extraction methods. -/
inductive ResultExtractionMethod where
  | terminationMessage
  | sidecarLogs
deriving DecidableEq, Repr

/-- The feature configuration the engine consumes. -/
structure FeatureFlags where
  resultExtractionMethod : ResultExtractionMethod := .terminationMessage
  maxResultSize : Nat := 4096
deriving DecidableEq, Repr

/-! ### Container classification and ordering -/

/-- The reserved step-container name marker. -/
def stepPre : String := "step-"

/-- The reserved sidecar-container name marker. -/
def sidecarPre : String := "sidecar-"

/-- Whether a container name designates a step. -/
def IsContainerStep (n : String) : Bool := strStartsWith n stepPre

/-- Whether a container name designates a sidecar. -/
def isContainerSidecar (n : String) : Bool := strStartsWith n sidecarPre

/-- `strings.TrimPrefix` for the step marker. -/
def trimStepPre (n : String) : String :=
  if strStartsWith n stepPre then strDrop n stepPre.length else n

/-- `strings.TrimPrefix` for the sidecar marker. -/
def trimSidecarPre (n : String) : String :=
  if strStartsWith n sidecarPre then strDrop n sidecarPre.length else n

/-- Go-map lookup of an observed status by container name (last write wins). -/
def lookupStatus (statuses : List ContainerStatus) (n : String) : Option ContainerStatus :=
  (statuses.filter (fun s => s.name == n)).getLast?

/-- Modelled from the spec: `sortPodContainerStatuses` (not under `src/`) —
the declared order is the arena and observed statuses are looked up by name
into its slots; declared names with no observed status are skipped.  As the
in-place Go sort overwrites only as many leading slots as it matches
(`TestSortPodContainerStatuses` pins the in-place behaviour), observed entries
whose names match nothing declared survive after the matched block. -/
def sortPodContainerStatuses (statuses : List ContainerStatus) (containers : List String) :
    List ContainerStatus :=
  let matched := containers.filterMap (lookupStatus statuses)
  matched ++ statuses.drop matched.length

/-- The engine's ordered view of the pod: statuses re-ordered by the declared
arena (the caller's pod value itself is left untouched). -/
def sortedPod (pod : Pod) : Pod :=
  { pod with containerStatuses := sortPodContainerStatuses pod.containerStatuses pod.containers }

/-- Whether a sidecar status counts as finished for the readiness gate:
Terminated, or Ready-and-Running. -/
def sidecarReadyOrTerminated (s : ContainerStatus) : Bool :=
  s.state.terminated.isSome || (s.ready && s.state.running)

/-- Every sidecar-classified status passes the readiness gate. -/
def sidecarsDone (statuses : List ContainerStatus) : Bool :=
  statuses.all (fun s => !isContainerSidecar s.name || sidecarReadyOrTerminated s)

/-- Modelled from the spec: `SidecarsReady` (not under `src/`) — true when the
pod is running and every sidecar is Ready-and-Running or Terminated
(`TestSidecarsReady` pins the per-status cases). -/
def SidecarsReady (phase : PodPhase) (statuses : List ContainerStatus) : Bool :=
  phase == .running && sidecarsDone statuses

/-! ### Side-channel (sidecar log) result fetching -/

/-- Modelled from the spec: `sidecarlogresults.GetResultsFromSidecarLogs`
(not under `src/`) — fails with the size-exceeded error when the stream
surpasses the configured maximum, otherwise decodes each line as a Run Result
record, any malformed line being a decode error. -/
def GetResultsFromSidecarLogs (maxResultSize : Nat) (stream : String) :
    Except StatusError (List RunResult) :=
  if maxResultSize < stream.length then .error .sizeExceeded
  else
    (((splitOnChar '\n' stream.data).map String.mk).filter (fun l => l != "")).mapM fun l =>
      match (parseJson l).bind jsonToRunResult with
      | some r => Except.ok r
      | none => Except.error (.invalidSidecarResult l)

/-- Modelled from the spec: `getStepResultsFromSidecarLogs` (not under
`src/`) — project the step-scoped records of one container, splitting each key
as `<stepName>.<resultName>`; a step-scoped key with no dot is a parse error
naming the invalid string (`TestGetStepResultsFromSidecarLogs` pins both
directions). -/
def getStepResultsFromSidecarLogs :
    List RunResult → String → Except StatusError (List RunResult)
  | [], _ => .ok []
  | r :: rest, containerName =>
      if r.resultType == StepResultType then
        match splitFirstChar '.' r.key.data with
        | some parts =>
            let stepName := String.mk parts.1
            let resultName := String.mk parts.2
            (match getStepResultsFromSidecarLogs rest containerName with
             | .ok l =>
                 .ok (if stepName == containerName then { r with key := resultName } :: l else l)
             | .error e => .error e)
        | none => .error (.invalidStepResultKey r.key)
      else getStepResultsFromSidecarLogs rest containerName

/-- Modelled from the spec: `getTaskResultsFromSidecarLogs` (not under
`src/`) — keep the task-scoped records. -/
def getTaskResultsFromSidecarLogs (rs : List RunResult) : List RunResult :=
  rs.filter (fun r => r.resultType == TaskRunResultType)

/-! ### Internal-record extraction and result filtering -/

/-- `strconv.ParseInt`-style decimal integer parsing. -/
def parseIntValue (s : String) : Option Int :=
  match s.data with
  | [] => none
  | c :: rest =>
      let p : Bool × List Char := if c = '-' then (true, rest) else (false, c :: rest)
      if !p.2.isEmpty && p.2.all Char.isDigit then
        let n : Nat := p.2.foldl (fun acc d => acc * 10 + (d.toNat - 48)) 0
        some (if p.1 then -(n : Int) else (n : Int))
      else none

/-- The internal exit-code override carried by an `ExitCode` internal record. -/
def extractExitCodeFromResults (rs : List RunResult) : Option Int :=
  (rs.find? (fun r => r.key == "ExitCode" && r.resultType == InternalTektonResultType)).bind
    (fun r => parseIntValue r.value)

/-- The internal termination-reason override carried by a `Reason` internal
record. -/
def extractReasonFromResults (rs : List RunResult) : Option String :=
  (rs.find? (fun r => r.key == "Reason" && r.resultType == InternalTektonResultType)).map
    (fun r => r.value)

/-- Declared task result with a given name, if any. -/
def lookupTaskResult (spec : List TaskResult) (n : String) : Option TaskResult :=
  spec.find? (fun d => d.name == n)

/-- Declared step result with a given name, if any. -/
def lookupStepResult (ds : List StepResult) (n : String) : Option StepResult :=
  ds.find? (fun d => d.name == n)

/-- The literal reference a task result uses to fetch a step result. -/
def stepRefString (stepName key : String) : String :=
  "$(steps." ++ stepName ++ ".results." ++ key ++ ")"

/-- Decode a legacy free-form record into a surfaced task result: a declared
string result keeps the raw value, anything else gets the dynamic decode. -/
def taskResultOfRecord (spec : List TaskResult) (r : RunResult) : TaskRunResult :=
  match lookupTaskResult spec r.key with
  | some d =>
      if d.rtype == .string then ⟨r.key, .string, .str r.value⟩
      else
        let v := decodeParamValue r.value
        ⟨r.key, typeOfParamValue v, v⟩
  | none =>
      let v := decodeParamValue r.value
      ⟨r.key, typeOfParamValue v, v⟩

/-- The typed value of a step-result record under the step's declared schema. -/
def stepValueOfRecord (stepRs : List StepResult) (r : RunResult) : ParamValue :=
  match lookupStepResult stepRs r.key with
  | some d => if d.rtype == .string then .str r.value else decodeParamValue r.value
  | none => decodeParamValue r.value

/-- Task results fed by a step-result record through declared references. -/
def projectedTaskResults (spec : List TaskResult) (stepName : String) (r : RunResult)
    (v : ParamValue) : List TaskRunResult :=
  spec.filterMap fun d =>
    if d.valueExpr == stepRefString stepName r.key then some ⟨d.name, d.rtype, v⟩ else none

/-- Output of `filterResults`. -/
structure FilteredResults where
  taskResults : List TaskRunResult
  stepResults : List TaskRunResult
  filtered : List RunResult
deriving DecidableEq, Repr

/-- Modelled from the spec: `filterResults` (not under `src/`) — walk the
decoded records once: legacy free-form records all surface as task results
(`TestMakeTaskRunStatus` pins that undeclared ones surface too); step-result
records surface as step results only when declared, and additionally as task
results through declared references; internal-only records are dropped
everywhere; all other records (artifacts payloads and unrecognized kinds) are
kept only in the filtered list that is re-serialized into the message. -/
def filterResults (rs : List RunResult) (spec : List TaskResult) (stepRs : List StepResult)
    (stepName : String) : FilteredResults :=
  match rs with
  | [] => ⟨[], [], []⟩
  | r :: rest =>
      let acc := filterResults rest spec stepRs stepName
      if r.resultType == TaskRunResultType then
        ⟨taskResultOfRecord spec r :: acc.taskResults, acc.stepResults, r :: acc.filtered⟩
      else if r.resultType == StepResultType then
        let v := stepValueOfRecord stepRs r
        let stepPart :=
          match lookupStepResult stepRs r.key with
          | some d => [(⟨r.key, d.rtype, v⟩ : TaskRunResult)]
          | none => []
        ⟨projectedTaskResults spec stepName r v ++ acc.taskResults,
          stepPart ++ acc.stepResults, r :: acc.filtered⟩
      else if r.resultType == InternalTektonResultType then acc
      else ⟨acc.taskResults, acc.stepResults, r :: acc.filtered⟩

/-! ### Step/sidecar state building -/

/-- The per-step outcome of the builder: the synthesized step state, its
contribution to the task-level results, its decode errors, and the observed
container status as it stands after the call (the builder works on a deep
copy of the lifecycle state, per the spec's input-immutability contract). -/
structure StepBuild where
  step : StepState
  taskResults : List TaskRunResult
  errors : List StatusError
  post : ContainerStatus
deriving DecidableEq, Repr

/-- Modelled from the spec: the per-container step-state builder inside
`setTaskRunStatusBasedOnStepStatus` (not under `src/`).  For a terminated
container with a message: decode it; on failure keep the message verbatim,
report zero results and record the decode error; on success strip
internal-only records from the re-serialized message, surface declared
results, take the visible exit code from the internal override when present
(never touching the observed status), and classify the termination reason
(internal `Reason` verbatim, else `Continued` under an exit-code override,
else by the exit code). -/
def buildStepState (sidecarRecords : List RunResult) (useLogs : Bool) (ts : TaskSpec)
    (s : ContainerStatus) : StepBuild :=
  let stepName := trimStepPre s.name
  let declaredStepRs := (((ts.steps.find? (fun st => st.name == stepName)).map
    (fun st => st.results)).getD [])
  match s.state.terminated with
  | some t =>
      if t.message == "" then
        ⟨⟨s.state, stepName, s.name, s.imageID, [], ""⟩, [], [], s⟩
      else
        match parseMessage t.message with
        | none =>
            ⟨⟨s.state, stepName, s.name, s.imageID, [], ""⟩, [],
              [.terminationMessageNotJson s.name t.message], s⟩
        | some rs =>
            let logPart :=
              if useLogs then
                match getStepResultsFromSidecarLogs sidecarRecords s.name with
                | .ok l => (l, ([] : List StatusError))
                | .error e => ([], [e])
              else ([], [])
            let rsAll := rs ++ logPart.1
            let exitCode? := extractExitCodeFromResults rs
            let reason? := extractReasonFromResults rs
            let fr := filterResults rsAll ts.results declaredStepRs stepName
            let newExit := exitCode?.getD t.exitCode
            let newTerm : TerminatedState :=
              { t with message := createMessageFromResults fr.filtered, exitCode := newExit }
            let termReason :=
              match reason? with
              | some v => v
              | none =>
                  if exitCode?.isSome then "Continued"
                  else if newExit != 0 then "Error"
                  else "Completed"
            ⟨⟨{ s.state with terminated := some newTerm }, stepName, s.name, s.imageID,
                fr.stepResults, termReason⟩,
              fr.taskResults, logPart.2, s⟩
  | none => ⟨⟨s.state, stepName, s.name, s.imageID, [], ""⟩, [], [], s⟩

/-- Output of `setTaskRunStatusBasedOnStepStatus`. -/
structure StepStatusOutcome where
  steps : List StepState
  taskResults : List TaskRunResult
  errors : List StatusError
  post : List ContainerStatus
deriving DecidableEq, Repr

/-- Modelled from the spec: `setTaskRunStatusBasedOnStepStatus` (not under
`src/`) — fetch the side channel when configured (its failures are fatal and
become the sole output), then visit every step status, collecting step states,
task-level results (surfaced only once the run is done), and the aggregated
non-fatal decode errors; the provided status list is returned unchanged
(`TestSetTaskRunStatusBasedOnStepStatus` pins input immutability). -/
def setTaskRunStatusBasedOnStepStatus (flags : FeatureFlags) (stream : String) (ts : TaskSpec)
    (isDone : Bool) (stepStatuses : List ContainerStatus) :
    Except StatusError StepStatusOutcome :=
  let useLogs := flags.resultExtractionMethod == .sidecarLogs
  match (if useLogs then GetResultsFromSidecarLogs flags.maxResultSize stream
         else .ok []) with
  | .error e => .error e
  | .ok sidecarRecords =>
      let built := stepStatuses.map (buildStepState sidecarRecords useLogs ts)
      let logTaskResults :=
        if useLogs then
          (filterResults (getTaskResultsFromSidecarLogs sidecarRecords) ts.results [] "").taskResults
        else []
      .ok ⟨built.map (fun b => b.step),
           (if isDone then listFlat built (fun b => b.taskResults) ++ logTaskResults else []),
           listFlat built (fun b => b.errors),
           built.map (fun b => b.post)⟩

/-! ### Condition synthesis -/

/-- Set the condition to the unknown (in-progress) state. -/
def markStatusRunning (trs : TaskRunStatus) (reason message : String) : TaskRunStatus :=
  { trs with condition := some ⟨.cunknown, reason, message⟩ }

/-- Set the condition to Failed. -/
def markStatusFailure (trs : TaskRunStatus) (reason message : String) : TaskRunStatus :=
  { trs with condition := some ⟨.cfalse, reason, message⟩ }

/-- Set the condition to Succeeded. -/
def markStatusSuccess (trs : TaskRunStatus) : TaskRunStatus :=
  { trs with condition := some ⟨.ctrue, "Succeeded", "All Steps have completed executing"⟩ }

/-- A status terminated with the out-of-memory kill reason. -/
def isOOMKilledStatus (s : ContainerStatus) : Bool :=
  match s.state.terminated with
  | some t => t.reason == "OOMKilled"
  | none => false

/-- Exit code of a terminated status (0 when not terminated). -/
def terminatedExit (s : ContainerStatus) : Int :=
  match s.state.terminated with
  | some t => t.exitCode
  | none => 0

/-- All step-classified statuses report a terminated state, at least one
status exists, and the pod still reports Running. -/
def areStepsComplete (pod : Pod) : Bool :=
  !pod.containerStatuses.isEmpty && pod.phase == .running &&
    pod.containerStatuses.all (fun s => !IsContainerStep s.name || s.state.terminated.isSome)

/-- Some step was OOM-killed. -/
def stepOOM (statuses : List ContainerStatus) : Bool :=
  statuses.any (fun s => IsContainerStep s.name && isOOMKilledStatus s)

/-- Modelled from the spec: `DidTaskRunFail` (not under `src/`) — the pod
phase is Failed, or some step terminated with a nonzero exit code or an OOM
kill. -/
def DidTaskRunFail (pod : Pod) : Bool :=
  pod.phase == .failed ||
    pod.containerStatuses.any fun s =>
      IsContainerStep s.name &&
        (match s.state.terminated with
         | some t => t.exitCode != 0 || t.reason == "OOMKilled"
         | none => false)

/-- The pod is complete: a terminal phase, all steps terminated, or an
OOM-killed step observed while other steps never ran. -/
def podComplete (pod : Pod) : Bool :=
  areStepsComplete pod || pod.phase == .succeeded || pod.phase == .failed ||
    stepOOM pod.containerStatuses

/-- A string wrapped in double quotes, as the Go `%q`-style messages print. -/
def quoted (s : String) : String :=
  String.mk ([quoteC] ++ s.data ++ [quoteC])

/-- Failure message for an OOM-killed container. -/
def oomMessage (s : ContainerStatus) : String :=
  if terminatedExit s != 0 then
    quoted s.name ++ " exited with code " ++ toString (terminatedExit s) ++ ": OOMKilled"
  else "OOMKilled"

/-- A step is still waiting on pod initialization. -/
def stepWaitingPodInitializing (s : ContainerStatus) : Bool :=
  IsContainerStep s.name &&
    (match s.state.waiting with
     | some w => w.reason == "PodInitializing"
     | none => false)

/-- An init container terminated with a nonzero exit code. -/
def initFailed (s : ContainerStatus) : Bool :=
  match s.state.terminated with
  | some t => t.exitCode != 0
  | none => false

/-- Modelled from the spec: the failed-state diagnostic message policy
(priority order per §4.5; `TestMakeTaskRunStatus` and
`TestMakeRunStatusJSONError` pin the concrete messages). -/
def getFailureMessage (pod : Pod) : String :=
  match pod.containerStatuses.find? isOOMKilledStatus with
  | some s => oomMessage s
  | none =>
    if pod.reason == "Evicted" && pod.message != "" then pod.message
    else
      match (if pod.containerStatuses.any stepWaitingPodInitializing then
               pod.initContainerStatuses.find? initFailed
             else none) with
      | some i =>
          "init container failed, " ++ quoted i.name ++ " exited with code " ++
            toString (terminatedExit i)
      | none =>
        match pod.containerStatuses.find? (fun s =>
            IsContainerStep s.name &&
              (match s.state.terminated with
               | some t => t.message != "" && (parseMessage t.message).isNone
               | none => false)) with
        | some s => quoted s.name ++ " exited with code " ++ toString (terminatedExit s)
        | none =>
          match pod.containerStatuses.find? (fun s =>
              IsContainerStep s.name &&
                (match s.state.terminated with
                 | some t => t.exitCode != 0
                 | none => false)) with
          | some s => quoted s.name ++ " exited with code " ++ toString (terminatedExit s)
          | none => if pod.message != "" then pod.message else "build failed for unspecified reasons."

/-- Modelled from the spec: `isSubPathDirectoryError` (not under `src/`) — a
waiting container reporting the config-error reason whose message carries the
subPath-directory marker (its test pins both directions). -/
def isSubPathDirectoryError (pod : Pod) : Bool :=
  pod.containerStatuses.any fun s =>
    match s.state.waiting with
    | some w =>
        w.reason == "CreateContainerConfigError" &&
          containsSub "subPath directory".data w.message.data
    | none => false

/-- A waiting container reports the container-configuration error reason. -/
def isPodHitConfigError (pod : Pod) : Bool :=
  pod.containerStatuses.any fun s =>
    match s.state.waiting with
    | some w => w.reason == "CreateContainerConfigError"
    | none => false

/-- A waiting container reports an image-pull backoff. -/
def isPullImageError (pod : Pod) : Bool :=
  pod.containerStatuses.any fun s =>
    match s.state.waiting with
    | some w => w.reason == "ImagePullBackOff"
    | none => false

/-- A pod condition flags unschedulability. -/
def IsPodExceedingNodeResources (pod : Pod) : Bool :=
  pod.conditions.any (fun c => c.reason == "Unschedulable")

/-- Modelled from the spec: the pending-state message policy (priority order
per §4.5; `TestMakeTaskRunStatus` pins the concrete messages). -/
def getWaitingMessage (pod : Pod) : String :=
  match pod.containerStatuses.find? (fun s =>
      match s.state.waiting with
      | some w => w.message != ""
      | none => false) with
  | some s =>
      let m := match s.state.waiting with
        | some w => w.message
        | none => ""
      "build step " ++ quoted s.name ++ " is pending with reason " ++ quoted m
  | none =>
    match pod.conditions.find? (fun c => c.message != "") with
    | some c => "pod status " ++ quoted c.ctype ++ ":" ++ quoted c.status ++ "; message: " ++ quoted c.message
    | none => if pod.message != "" then pod.message else "Pending"

/-- Modelled from the spec: `updateIncompleteTaskRunStatus` (not under
`src/`) — Running keeps the in-progress condition; Pending resolves the
subPath delay, the container-config error (a Failure with no completion
time), the image-pull backoff, exhausted node resources, and the generic
waiting message in that order; any other phase leaves the condition as it
stands (its test and `TestMakeTaskRunStatus` pin the cases). -/
def updateIncompleteTaskRunStatus (trs : TaskRunStatus) (pod : Pod) : TaskRunStatus :=
  match pod.phase with
  | .running => markStatusRunning trs "Running" "Not all Steps in the Task have finished executing"
  | .pending =>
      if isSubPathDirectoryError pod then
        markStatusRunning trs "Pending" "Waiting for subPath directory creation to complete"
      else if isPodHitConfigError pod then
        markStatusFailure trs "CreateContainerConfigError" "Failed to create pod due to config error"
      else if isPullImageError pod then
        markStatusRunning trs "PullImageFailed" (getWaitingMessage pod)
      else if IsPodExceedingNodeResources pod then
        markStatusRunning trs "ExceededNodeResources" "TaskRun Pod exceeded available resources"
      else markStatusRunning trs "Pending" (getWaitingMessage pod)
  | _ => trs

/-- Modelled from the spec: `updateCompletedTaskRunStatus` (not under
`src/`) — a failure is marked with the priority-ordered message (ignored
variant under the continue annotation); success is gated on sidecar
readiness (`TestMakeTaskRunStatus_SidecarNotCompleted` pins the gate), a
blocked gate staying Running; the completion timestamp is set exactly when
the resulting condition is terminal. -/
def updateCompletedTaskRunStatus (trs : TaskRunStatus) (pod : Pod) (onErrorContinue : Bool) :
    TaskRunStatus :=
  let marked :=
    if DidTaskRunFail pod then
      markStatusFailure trs (if onErrorContinue then "FailureIgnored" else "Failed")
        (getFailureMessage pod)
    else if sidecarsDone pod.containerStatuses then markStatusSuccess trs
    else markStatusRunning trs "Running" "Not all Steps in the Task have finished executing"
  if conditionTerminal marked.condition then { marked with completionTimeSet := true }
  else marked

/-- First-occurrence-ordered names of a result list. -/
def firstOccurrences : List TaskRunResult → List String → List TaskRunResult
  | [], _ => []
  | r :: rest, seen =>
      if seen.contains r.name then firstOccurrences rest seen
      else r :: firstOccurrences rest (r.name :: seen)

/-- The last surfaced result with a given name. -/
def latestResult (l : List TaskRunResult) (n : String) : Option TaskRunResult :=
  (l.filter (fun r => r.name == n)).getLast?

/-- Modelled from the spec: `removeDuplicateResults` (not under `src/`) —
first-occurrence order, last-written value per name
(`TestMakeTaskRunStatus` "two test results" pins the semantics). -/
def removeDuplicateResults (l : List TaskRunResult) : List TaskRunResult :=
  (firstOccurrences l []).map (fun r => (latestResult l r.name).getD r)

/-- Modelled from the spec: the carried-forward status, marked in progress
unless the prior condition is already terminal. -/
def initialCondition (tr : TaskRun) : TaskRunStatus :=
  if conditionTerminal tr.status.condition then tr.status
  else markStatusRunning tr.status "Running" "Not all Steps in the Task have finished executing"

/-- Modelled from the spec: the condition-synthesis half of
`MakeTaskRunStatus` — derive the condition on the completed or incomplete
path over the engine's ordered view of the pod. -/
def synthesizedCondition (tr : TaskRun) (pod : Pod) : TaskRunStatus :=
  if podComplete (sortedPod pod) then
    updateCompletedTaskRunStatus (initialCondition tr) (sortedPod pod) tr.onErrorContinue
  else updateIncompleteTaskRunStatus (initialCondition tr) (sortedPod pod)

/-- Modelled from the spec: `MakeTaskRunStatus` (not under `src/`) — mark the
run in progress unless already terminal, order the observed statuses by the
declared arena, derive the condition on the completed or incomplete path,
then build step and sidecar states in that order and aggregate results
(deduplicated) and decode errors.  The caller's pod is never mutated; the
engine works on its own ordered view. -/
def MakeTaskRunStatus (flags : FeatureFlags) (stream : String) (tr : TaskRun) (pod : Pod)
    (ts : TaskSpec) : Except StatusError (TaskRunStatus × List StatusError) :=
  let podS := sortedPod pod
  let sorted := podS.containerStatuses
  let trs2 := synthesizedCondition tr pod
  let stepStatuses := sorted.filter (fun s => IsContainerStep s.name)
  let sidecarStatuses := sorted.filter (fun s => isContainerSidecar s.name)
  match setTaskRunStatusBasedOnStepStatus flags stream ts (conditionTerminal trs2.condition)
      stepStatuses with
  | .error e => .error e
  | .ok o =>
      let sidecars := sidecarStatuses.map fun s =>
        SidecarState.mk s.state (trimSidecarPre s.name) s.name s.imageID
      .ok ({ trs2 with
              podName := podS.name,
              steps := o.steps,
              sidecars := sidecars,
              results := removeDuplicateResults (trs2.results ++ o.taskResults) },
           o.errors)

/-! ### Claim-side characterizations (stated from the spec's words, to be
compared with the engine's definitions) -/

/-- Claim-side: the task-result records one decoded record contributes to the
aggregate — every legacy free-form record, and a step-result record once per
declared task result referencing it. -/
def recordTaskResults (spec : List TaskResult) (stepRs : List StepResult) (stepName : String)
    (r : RunResult) : List TaskRunResult :=
  if r.resultType == TaskRunResultType then [taskResultOfRecord spec r]
  else if r.resultType == StepResultType then
    projectedTaskResults spec stepName r (stepValueOfRecord stepRs r)
  else []

/-- Claim-side: the step-result records one decoded record contributes — a
declared step result typed per the declaration, nothing otherwise. -/
def recordStepResults (stepRs : List StepResult) (r : RunResult) : List TaskRunResult :=
  if r.resultType == StepResultType then
    match lookupStepResult stepRs r.key with
    | some d => [(⟨r.key, d.rtype, stepValueOfRecord stepRs r⟩ : TaskRunResult)]
    | none => []
  else []

/-! ### Concrete fixtures, taken from `src/pkg/pod/status_test.go` -/

/-- Termination message of the `filter internaltektonresult` test case. -/
def pearMsg : String :=
  "[\x7b\"key\":\"resultNameOne\",\"value\":\"\",\"type\":3\x7d, \x7b\"key\":\"resultNameThree\",\"value\":\"\",\"type\":1\x7d]"

/-- Pod of the `filter internaltektonresult` test case: one succeeded step
whose message carries an internal record and a legacy result, no declared
result schema. -/
def fixturePodPear : Pod :=
  { name := "pod", phase := .succeeded,
    containerStatuses := [
      { name := "step-pear",
        state := { terminated := some { exitCode := 0, message := pearMsg } } }] }

/-- Termination message of the exit-code-override (`Continued`) test case. -/
def continueMsg : String :=
  "[\x7b\"key\":\"ExitCode\",\"value\":\"11\",\"type\":\"InternalTektonResult\"\x7d]"

/-- Container status of the exit-code-override (`Continued`) test case. -/
def fixtureContinueStatus : ContainerStatus :=
  { name := "step-first",
    state := { terminated := some { exitCode := 0, message := continueMsg } } }

/-- Pod of the `pending-CreateContainerConfigError` test case. -/
def fixturePodConfigError : Pod :=
  { name := "pod", phase := .pending,
    containerStatuses := [
      { state := { waiting := some { reason := "CreateContainerConfigError" } } }] }

/-- A pod with one successfully terminated step and one sidecar that has
terminated without ever becoming ready. -/
def fixturePodSidecarTerminated : Pod :=
  { name := "pod", phase := .running,
    containers := ["step-a", "sidecar-b"],
    containerStatuses := [
      { name := "step-a", state := { terminated := some { exitCode := 0 } } },
      { name := "sidecar-b", ready := false,
        state := { terminated := some { exitCode := 99 } } }] }

/-- The `test sidecar not completed` pod: the results sidecar has not yet
terminated while the only step has. -/
def fixturePodSidecarWaiting : Pod :=
  { name := "pod", phase := .running,
    containers := ["step-a", "sidecar-b"],
    containerStatuses := [
      { name := "step-a", state := { terminated := some { exitCode := 0 } } },
      { name := "sidecar-b" }] }

/-- A minimal succeeded pod (the `success` test case). -/
def fixturePodSuccess : Pod :=
  { name := "pod", phase := .succeeded,
    containerStatuses := [
      { name := "step-step-push", imageID := "image-id",
        state := { terminated := some { exitCode := 0 } } }] }

/-- The non-JSON termination message of `TestMakeRunStatusJSONError`. -/
def nonJsonMsg : String := "this is a non-json termination message. dont panic"

/-- Pod of `TestMakeRunStatusJSONError`: four declared steps, one of which
carries a non-JSON termination message. -/
def fixturePodJsonError : Pod :=
  { name := "pod", phase := .failed,
    containers := ["step-non-json", "step-after-non-json", "step-this-step-might-panic", "step-foo"],
    containerStatuses := [
      { name := "step-this-step-might-panic", imageID := "image",
        state := { terminated := some {} } },
      { name := "step-foo", imageID := "image", state := { terminated := some {} } },
      { name := "step-non-json", imageID := "image",
        state := { terminated := some { exitCode := 1, message := nonJsonMsg } } },
      { name := "step-after-non-json", imageID := "image",
        state := { terminated := some {} } }] }

/-- The malformed-record message of the `termination message not adhering to
RunResult format` test case: a JSON object array whose object carries no
recognized field. -/
def pineappleMsg : String := "[\x7b\"invalid\":\"resultName\",\"invalid\":\"resultValue\"\x7d]"

/-- Container status carrying the malformed-record message. -/
def fixturePineappleStatus : ContainerStatus :=
  { name := "step-pineapple",
    state := { terminated := some { exitCode := 0, message := pineappleMsg } } }

/-- Termination message of the `test result with pipeline result` case: a
legacy result plus an object of unrecognized kind. -/
def barMsg : String :=
  "[\x7b\"key\":\"resultName\",\"value\":\"resultValue\", \"type\":1\x7d, \x7b\"key\":\"digest\",\"value\":\"sha256:1234\",\"resourceName\":\"source-image\"\x7d]"

/-- Container status carrying `barMsg`. -/
def fixtureBarStatus : ContainerStatus :=
  { name := "step-bar",
    state := { terminated := some { exitCode := 0, message := barMsg } } }

/-- Pod of the `correct TaskRun status step order` test case, including a
container named with the bare step marker and empty stem, plus a sidecar. -/
def fixturePodOrder : Pod :=
  { name := "pod", phase := .succeeded,
    containers := ["step-first", "step-second", "step-third", "step-", "step-fourth", "sidecar-s"],
    containerStatuses := [
      { name := "step-second", state := { terminated := some {} } },
      { name := "step-fourth", state := { terminated := some {} } },
      { name := "sidecar-s", state := { terminated := some {} } },
      { name := "step-", state := { terminated := some {} } },
      { name := "step-first", state := { terminated := some {} } },
      { name := "step-third", state := { terminated := some {} } }] }

/-- A permutation of `fixturePodOrder`'s observed status list. -/
def fixtureOrderObsPerm : List ContainerStatus :=
  [{ name := "step-third", state := { terminated := some {} } },
   { name := "step-", state := { terminated := some {} } },
   { name := "step-second", state := { terminated := some {} } },
   { name := "sidecar-s", state := { terminated := some {} } },
   { name := "step-first", state := { terminated := some {} } },
   { name := "step-fourth", state := { terminated := some {} } }]

/-- A pod whose only observed status has no declared counterpart. -/
def fixturePodUndeclared : Pod :=
  { name := "pod", phase := .succeeded,
    containers := [],
    containerStatuses := [
      { name := "step-foo", state := { terminated := some {} } }] }

/-- Sidecar-log records with a step-scoped key that has no dot. -/
def fixtureBadKeyRecords : List RunResult :=
  [{ key := "step-foo-step-res", value := "bar", resultType := 4 }]

deriving instance DecidableEq for Except

/-- The outcome the engine computes for `fixtureContinueStatus`: the visible
exit code comes from the internal record, the internal record is stripped
from the message, and the input status is handed back untouched. -/
def fixtureContinueOutcome : StepStatusOutcome :=
  { steps := [{ state := { terminated := some { exitCode := 11 } },
                name := "first", container := "step-first", imageID := "",
                results := [], terminationReason := "Continued" }],
    taskResults := [], errors := [], post := [fixtureContinueStatus] }

/-! ## Theorems

General-purpose lemmas first, then one theorem per claim with its witness or
counterexample. -/

theorem listFlat_append (l₁ l₂ : List α) (f : α → List β) :
    listFlat (l₁ ++ l₂) f = listFlat l₁ f ++ listFlat l₂ f := by
  induction l₁ with
  | nil => rfl
  | cons a l ih => simp [listFlat, ih]

theorem listFlat_ne_nil {l : List α} {f : α → List β} {a : α}
    (ha : a ∈ l) (hf : f a ≠ []) : listFlat l f ≠ [] := by
  induction l with
  | nil => cases ha
  | cons b l ih =>
      rcases List.mem_cons.mp ha with h | h
      · subst h
        simp only [listFlat]
        intro hc
        exact hf (List.append_eq_nil.mp hc).1
      · simp only [listFlat]
        intro hc
        exact ih h (List.append_eq_nil.mp hc).2

theorem map_filter_comm (f : α → β) (p : β → Bool) (l : List α) :
    (l.filter (fun a => p (f a))).map f = (l.map f).filter p := by
  induction l with
  | nil => rfl
  | cons a l ih =>
      by_cases h : p (f a) = true <;> simp [h, ih]

theorem filter_filter' (p q : α → Bool) (l : List α) :
    (l.filter q).filter p = l.filter (fun a => p a && q a) := by
  induction l with
  | nil => rfl
  | cons a l ih =>
      by_cases hq : q a = true <;> by_cases hp : p a = true <;> simp [hq, hp, ih]

theorem hexOfBytes_length (bs : List Nat) :
    (hexOfBytes bs).length = 2 * bs.length := by
  induction bs with
  | nil => rfl
  | cons b l ih => simp [hexOfBytes, listFlat] at ih ⊢; omega

theorem sha256_length (msg : List Nat) : (SHA256.sha256 msg).length = 32 := by
  simp [SHA256.sha256, listFlat, SHA256.toBytesBE]

theorem sha256_test_vector :
    String.mk (hexOfBytes (SHA256.sha256 (utf8Bytes "abc"))) =
      "ba7816bf8f01cfea414140de5dae2223b00361a396177a9cb410ff61f20015ad" := by
  decide

/-- C10: `GetAffinityAssistantName` returns the affinity-assistant component
prefix, a hyphen, and exactly the first 10 hex characters of the SHA-256 of
the concatenation of its two arguments; the name is deterministic and of
fixed length, and any two argument pairs with equal concatenations map to the
same name. -/
theorem C10_affinity_assistant_name (w r : String) :
    GetAffinityAssistantName w r =
      ComponentNameAffinityAssistant ++ "-" ++
        String.mk ((hexOfBytes (SHA256.sha256 (utf8Bytes (w ++ r)))).take 10) ∧
    (GetAffinityAssistantName w r).length = ComponentNameAffinityAssistant.length + 11 ∧
    (∀ w2 r2 : String, w ++ r = w2 ++ r2 →
      GetAffinityAssistantName w r = GetAffinityAssistantName w2 r2) := by
  refine ⟨rfl, ?_, ?_⟩
  · have hlen : ((hexOfBytes (SHA256.sha256 (utf8Bytes (w ++ r)))).take 10).length = 10 := by
      rw [List.length_take, hexOfBytes_length, sha256_length]
      omega
    show (ComponentNameAffinityAssistant ++ "-" ++
      String.mk ((hexOfBytes (SHA256.sha256 (utf8Bytes (w ++ r)))).take 10)).length = _
    rw [String.length_append, String.length_append]
    show _ + 1 + ((hexOfBytes (SHA256.sha256 (utf8Bytes (w ++ r)))).take 10).length = _
    rw [hlen]
  · intro w2 r2 h
    unfold GetAffinityAssistantName
    rw [h]

/-- C10 witness: two concrete pairs with equal concatenation get the same
name. -/
theorem C10_affinity_assistant_name_witness :
    GetAffinityAssistantName "ab" "c" = GetAffinityAssistantName "a" "bc" :=
  (C10_affinity_assistant_name "ab" "c").2.2 "a" "bc" rfl

theorem buildStepState_post (recs : List RunResult) (ul : Bool) (ts : TaskSpec)
    (s : ContainerStatus) : (buildStepState recs ul ts s).post = s := by
  unfold buildStepState
  cases h : s.state.terminated with
  | none => rfl
  | some t =>
      by_cases hm : (t.message == "") = true
      · simp [hm]
      · simp only [hm]
        cases hp : parseMessage t.message <;> simp

theorem buildStepState_container (recs : List RunResult) (ul : Bool) (ts : TaskSpec)
    (s : ContainerStatus) : (buildStepState recs ul ts s).step.container = s.name := by
  unfold buildStepState
  cases h : s.state.terminated with
  | none => rfl
  | some t =>
      by_cases hm : (t.message == "") = true
      · simp [hm]
      · simp only [hm]
        cases hp : parseMessage t.message <;> simp

/-- C2: the status-synthesis entry points never mutate the provided
container-status list: whatever `setTaskRunStatusBasedOnStepStatus` computes
(exit-code overrides and message rewrites included), the status list it hands
back is exactly the one it was given, element by element. -/
theorem C2_input_immutability (flags : FeatureFlags) (stream : String) (ts : TaskSpec)
    (isDone : Bool) (sts : List ContainerStatus) (o : StepStatusOutcome)
    (hok : setTaskRunStatusBasedOnStepStatus flags stream ts isDone sts = .ok o) :
    o.post = sts := by
  simp only [setTaskRunStatusBasedOnStepStatus] at hok
  cases hfetch : (if (flags.resultExtractionMethod == ResultExtractionMethod.sidecarLogs) = true then
      GetResultsFromSidecarLogs flags.maxResultSize stream
    else Except.ok []) with
  | error e => rw [hfetch] at hok; cases hok
  | ok recs =>
      rw [hfetch] at hok
      cases hok
      show (sts.map _).map _ = sts
      rw [List.map_map]
      have : ∀ s ∈ sts,
          (StepBuild.post ∘ buildStepState recs (flags.resultExtractionMethod == .sidecarLogs) ts) s = id s :=
        fun s _ => buildStepState_post _ _ _ s
      rw [List.map_congr_left this, List.map_id]

set_option maxRecDepth 100000 in
/-- C2 witness: at the exit-code-override input pinned by
`TestSetTaskRunStatusBasedOnStepStatus`, the call succeeds and returns the
input status list unchanged. -/
theorem C2_input_immutability_witness :
    setTaskRunStatusBasedOnStepStatus {} "" {} true [fixtureContinueStatus] =
      .ok fixtureContinueOutcome ∧
    fixtureContinueOutcome.post = [fixtureContinueStatus] :=
  ⟨by decide,
   C2_input_immutability {} "" {} true [fixtureContinueStatus] fixtureContinueOutcome (by decide)⟩

/-- C6: a terminated step whose decoded message carries an exit-code override
(and no reason override) reports termination reason `Continued`, its visible
exit code is the override value, and the observed container status itself is
handed back untouched. -/
theorem C6_continue_override (recs : List RunResult) (ul : Bool) (ts : TaskSpec)
    (s : ContainerStatus) (t : TerminatedState) (rs : List RunResult) (v : Int)
    (ht : s.state.terminated = some t) (hm : t.message ≠ "")
    (hp : parseMessage t.message = some rs)
    (hr : extractReasonFromResults rs = none)
    (he : extractExitCodeFromResults rs = some v) :
    (buildStepState recs ul ts s).step.terminationReason = "Continued" ∧
    (buildStepState recs ul ts s).step.state.terminated.map
        (fun nt => (nt.exitCode, nt.reason)) = some (v, t.reason) ∧
    (buildStepState recs ul ts s).post = s := by
  have hm' : (t.message == "") = false := by
    simpa using hm
  refine ⟨?_, ?_, buildStepState_post recs ul ts s⟩ <;>
    · unfold buildStepState
      simp [ht, hm', hp, hr, he]

set_option maxRecDepth 100000 in
/-- C6 witness: at the pinned `include non zero exit code` input (exit code 0,
internal override 11 written with the string alias), the step state reports
`Continued` with visible exit code 11 while the input status is returned
unchanged. -/
theorem C6_continue_override_witness :
    (buildStepState [] false {} fixtureContinueStatus).step.terminationReason = "Continued" ∧
    (buildStepState [] false {} fixtureContinueStatus).step.state.terminated.map
        (fun nt => (nt.exitCode, nt.reason)) =
      some (11, ({ exitCode := 0, message := continueMsg } : TerminatedState).reason) ∧
    (buildStepState [] false {} fixtureContinueStatus).post = fixtureContinueStatus :=
  C6_continue_override [] false {} fixtureContinueStatus
    { exitCode := 0, message := continueMsg }
    [⟨"ExitCode", "11", "", 3⟩] 11 rfl (by decide) (by decide) (by decide) (by decide)

/-- C9: with the side-channel log method configured, a payload over the
configured maximum aborts the whole status computation with the size-exceeded
error as its sole output; and a step-scoped log record whose key does not
split as `<stepName>.<resultName>` yields a parse error naming the invalid
string. -/
theorem C9_sidecar_log_errors :
    (∀ (flags : FeatureFlags) (stream : String) (ts : TaskSpec) (isDone : Bool)
        (sts : List ContainerStatus),
        flags.resultExtractionMethod = .sidecarLogs →
        flags.maxResultSize < stream.length →
        setTaskRunStatusBasedOnStepStatus flags stream ts isDone sts =
          .error .sizeExceeded) ∧
    (∀ (rs : List RunResult) (containerName : String) (r : RunResult),
        r ∈ rs → r.resultType = StepResultType → splitFirstChar '.' r.key.data = none →
        ∃ k, getStepResultsFromSidecarLogs rs containerName =
            .error (.invalidStepResultKey k) ∧
          ∃ rb, rb ∈ rs ∧ rb.resultType = StepResultType ∧
            splitFirstChar '.' rb.key.data = none ∧ rb.key = k) := by
  constructor
  · intro flags stream ts isDone sts hmethod hsize
    unfold setTaskRunStatusBasedOnStepStatus GetResultsFromSidecarLogs
    simp [hmethod, hsize]
  · intro rs containerName r hmem htype hsplit
    induction rs with
    | nil => cases hmem
    | cons r0 rest ih =>
        by_cases h0 : (r0.resultType == StepResultType) = true
        · cases hsp : splitFirstChar '.' r0.key.data with
          | none =>
              refine ⟨r0.key, ?_, r0, List.mem_cons_self _ _, by simpa using h0, hsp, rfl⟩
              unfold getStepResultsFromSidecarLogs
              simp [h0, hsp]
          | some parts =>
              have hr : r ∈ rest := by
                rcases List.mem_cons.mp hmem with h | h
                · subst h; rw [hsplit] at hsp; cases hsp
                · exact h
              obtain ⟨k, hk, rb, hrb, hrbt, hrbs, hrbk⟩ := ih hr
              refine ⟨k, ?_, rb, List.mem_cons_of_mem _ hrb, hrbt, hrbs, hrbk⟩
              unfold getStepResultsFromSidecarLogs
              simp only [h0, hsp, if_true, hk]
        · have hr : r ∈ rest := by
            rcases List.mem_cons.mp hmem with h | h
            · subst h; simp [htype] at h0
            · exact h
          obtain ⟨k, hk, rb, hrb, hrbt, hrbs, hrbk⟩ := ih hr
          refine ⟨k, ?_, rb, List.mem_cons_of_mem _ hrb, hrbt, hrbs, hrbk⟩
          unfold getStepResultsFromSidecarLogs
          simp only [h0, hk]
          simp [Bool.not_eq_true] at h0
          simp [h0, hk]

/-- C9 witness: the pinned oversized payload aborts with the size-exceeded
error, and the pinned malformed key yields the parse error naming it. -/
theorem C9_sidecar_log_errors_witness :
    setTaskRunStatusBasedOnStepStatus
        { resultExtractionMethod := .sidecarLogs, maxResultSize := 1 } "fake logs" {} false [{}] =
      .error .sizeExceeded ∧
    ∃ k, getStepResultsFromSidecarLogs fixtureBadKeyRecords "step-foo" =
        .error (.invalidStepResultKey k) ∧
      ∃ rb, rb ∈ fixtureBadKeyRecords ∧ rb.resultType = StepResultType ∧
        splitFirstChar '.' rb.key.data = none ∧ rb.key = k := by
  constructor
  · exact C9_sidecar_log_errors.1 _ "fake logs" {} false [{}] rfl (by decide)
  · exact C9_sidecar_log_errors.2 fixtureBadKeyRecords "step-foo"
      ⟨"step-foo-step-res", "bar", "", 4⟩ (by decide) rfl (by decide)

theorem listFlat_eq_nil {l : List α} {f : α → List β} (h : ∀ a ∈ l, f a = []) :
    listFlat l f = [] := by
  induction l with
  | nil => rfl
  | cons a l ih =>
      simp only [listFlat, h a (List.mem_cons_self a l)]
      exact ih (fun b hb => h b (List.mem_cons_of_mem a hb))

theorem filterResults_filtered (rs : List RunResult) (spec : List TaskResult)
    (stepRs : List StepResult) (stepName : String) :
    (filterResults rs spec stepRs stepName).filtered =
      rs.filter (fun r => r.resultType != InternalTektonResultType) := by
  induction rs with
  | nil => rfl
  | cons r rest ih =>
      by_cases h3 : r.resultType = InternalTektonResultType
      · have h1 : (r.resultType == TaskRunResultType) = false := by
          simp [h3, InternalTektonResultType, TaskRunResultType]
        have h4 : (r.resultType == StepResultType) = false := by
          simp [h3, InternalTektonResultType, StepResultType]
        have h3' : (r.resultType == InternalTektonResultType) = true := by simp [h3]
        have hne : (r.resultType != InternalTektonResultType) = false := by
          simp [bne, h3']
        simp [filterResults, h1, h4, h3', hne, ih]
      · have hne : (r.resultType != InternalTektonResultType) = true := by
          simpa using h3
        by_cases h1 : (r.resultType == TaskRunResultType) = true
        · simp [filterResults, h1, hne, ih]
        · by_cases h4 : (r.resultType == StepResultType) = true
          · simp [filterResults, h1, h4, hne, ih]
          · have h3' : (r.resultType == InternalTektonResultType) = false := by
              simpa using h3
            simp [filterResults, h1, h4, h3', hne, ih]

/-- C3 (amended): a single pass of `filterResults` surfaces, record by record,
every legacy free-form record as a task result (declared or not), declared
step results typed per their declaration, task results fed by declared
references to step results — and nothing at all from internal-only records. -/
theorem C3_result_filtering (rs : List RunResult) (spec : List TaskResult)
    (stepRs : List StepResult) (stepName : String) :
    (filterResults rs spec stepRs stepName).taskResults =
      listFlat rs (recordTaskResults spec stepRs stepName) ∧
    (filterResults rs spec stepRs stepName).stepResults =
      listFlat rs (recordStepResults stepRs) ∧
    (filterResults (rs.filter (fun r => r.resultType == InternalTektonResultType))
        spec stepRs stepName).taskResults = [] ∧
    (filterResults (rs.filter (fun r => r.resultType == InternalTektonResultType))
        spec stepRs stepName).stepResults = [] := by
  have main : ∀ l : List RunResult,
      (filterResults l spec stepRs stepName).taskResults =
        listFlat l (recordTaskResults spec stepRs stepName) ∧
      (filterResults l spec stepRs stepName).stepResults =
        listFlat l (recordStepResults stepRs) := by
    intro l
    induction l with
    | nil => exact ⟨rfl, rfl⟩
    | cons r rest ih =>
        by_cases h1 : (r.resultType == TaskRunResultType) = true
        · have h4 : (r.resultType == StepResultType) = false := by
            have h := eq_of_beq h1
            simp [h, TaskRunResultType, StepResultType]
          exact ⟨by simp [filterResults, recordTaskResults, listFlat, h1, ih.1],
                 by simp [filterResults, recordStepResults, listFlat, h1, h4, ih.2]⟩
        · by_cases h4 : (r.resultType == StepResultType) = true
          · cases hls : lookupStepResult stepRs r.key <;>
              exact ⟨by simp [filterResults, recordTaskResults, listFlat, h1, h4, hls, ih.1],
                     by simp [filterResults, recordStepResults, listFlat, h1, h4, hls, ih.2]⟩
          · by_cases h3 : (r.resultType == InternalTektonResultType) = true <;>
              exact ⟨by simp [filterResults, recordTaskResults, listFlat, h1, h4, h3, ih.1],
                     by simp [filterResults, recordStepResults, listFlat, h1, h4, h3, ih.2]⟩
  refine ⟨(main rs).1, (main rs).2, ?_, ?_⟩
  · rw [(main _).1]
    refine listFlat_eq_nil (fun r hr => ?_)
    have h3 := (List.mem_filter.mp hr).2
    have h1 : (r.resultType == TaskRunResultType) = false := by
      have := eq_of_beq h3
      simp [this, TaskRunResultType, InternalTektonResultType]
    have h4 : (r.resultType == StepResultType) = false := by
      have := eq_of_beq h3
      simp [this, StepResultType, InternalTektonResultType]
    simp [recordTaskResults, h1, h4]
  · rw [(main _).2]
    refine listFlat_eq_nil (fun r hr => ?_)
    have h3 := (List.mem_filter.mp hr).2
    have h4 : (r.resultType == StepResultType) = false := by
      have := eq_of_beq h3
      simp [this, StepResultType, InternalTektonResultType]
    simp [recordStepResults, h4]

set_option maxRecDepth 100000 in
/-- C3 counterexample (as the claim stands): at the pinned
`filter internaltektonresult` pod, the declared result schema is empty, yet
the aggregated top-level results list is not — a legacy record whose key
matches no declared result is surfaced, so the aggregate is not the subset of
decoded records with declared keys. -/
theorem C3_counterexample :
    ∃ st errs, MakeTaskRunStatus {} "" {} fixturePodPear {} = .ok (st, errs) ∧
      ({} : TaskSpec).results = [] ∧
      st.results = [{ name := "resultNameThree", rtype := .string, value := .str "" }] ∧
      st.results ≠ [] :=
  ⟨_, _, rfl, rfl, by decide, by decide⟩

theorem charListLe_total : ∀ as bs : List Char, charListLe as bs = true ∨ charListLe bs as = true := by
  intro as
  induction as with
  | nil => intro bs; left; rfl
  | cons a as ih =>
      intro bs
      cases bs with
      | nil => right; rfl
      | cons b bs =>
          by_cases hab : a.toNat < b.toNat
          · left; simp [charListLe, hab]
          · by_cases hba : b.toNat < a.toNat
            · right; simp [charListLe, hba]
            · rcases ih bs with h | h
              · left; simp [charListLe, hab, hba, h]
              · right; simp [charListLe, hab, hba, h]

theorem charListLe_trans : ∀ as bs cs : List Char, charListLe as bs = true →
    charListLe bs cs = true → charListLe as cs = true := by
  intro as
  induction as with
  | nil => intro bs cs _ _; rfl
  | cons a as ih =>
      intro bs cs h1 h2
      cases bs with
      | nil => simp [charListLe] at h1
      | cons b bs =>
          cases cs with
          | nil => simp [charListLe] at h2
          | cons c cs =>
              simp only [charListLe] at h1 h2 ⊢
              by_cases hab : a.toNat < b.toNat
              · by_cases hbc : b.toNat < c.toNat
                · have hac : a.toNat < c.toNat := by omega
                  simp [hac]
                · by_cases hcb : c.toNat < b.toNat
                  · simp [hbc, hcb] at h2
                  · have hac : a.toNat < c.toNat := by omega
                    simp [hac]
              · by_cases hba : b.toNat < a.toNat
                · simp [hab, hba] at h1
                · by_cases hbc : b.toNat < c.toNat
                  · have hac : a.toNat < c.toNat := by omega
                    simp [hac]
                  · by_cases hcb : c.toNat < b.toNat
                    · simp [hbc, hcb] at h2
                    · have h1' : charListLe as bs = true := by simpa [hab, hba] using h1
                      have h2' : charListLe bs cs = true := by simpa [hbc, hcb] using h2
                      have hac : ¬ a.toNat < c.toNat := by omega
                      have hca : ¬ c.toNat < a.toNat := by omega
                      simp [hac, hca]
                      exact ih bs cs h1' h2'

instance : IsTotal RunResult keyLE :=
  ⟨fun a b => charListLe_total a.key.data b.key.data⟩

instance : IsTrans RunResult keyLE :=
  ⟨fun _ _ _ h1 h2 => charListLe_trans _ _ _ h1 h2⟩

theorem sortByKey_sorted (l : List RunResult) : List.Pairwise keyLE (sortByKey l) :=
  List.sorted_insertionSort keyLE l

theorem sortByKey_perm (l : List RunResult) : (sortByKey l).Perm l :=
  List.perm_insertionSort keyLE l

/-- C8 (amended): a terminated step whose message decodes as a record array
stores back that array with internal-only records *and zero-valued records*
stripped, re-serialized in ascending key order; records of unrecognized kind
survive the filter. -/
theorem C8_message_rewrite (ts : TaskSpec) (s : ContainerStatus) (t : TerminatedState)
    (rs : List RunResult) (ht : s.state.terminated = some t) (hm : t.message ≠ "")
    (hp : parseMessageRaw t.message = some rs) :
    ∃ l, (buildStepState [] false ts s).step.state.terminated.map (fun nt => nt.message) =
        some (createMessageFromResults l) ∧
      List.Pairwise keyLE l ∧
      l.Perm (rs.filter (fun r =>
        (r.resultType != InternalTektonResultType) && (r != emptyRunResult))) := by
  have hm' : (t.message == "") = false := by simpa using hm
  have hparsed : parseMessage t.message =
      some (sortByKey (rs.filter (fun r => r != emptyRunResult))) := by
    simp [parseMessage, hp]
  refine ⟨(sortByKey (rs.filter (fun r => r != emptyRunResult))).filter
      (fun r => r.resultType != InternalTektonResultType), ?_, ?_, ?_⟩
  · unfold buildStepState
    simp [ht, hm', hparsed, filterResults_filtered]
  · exact List.Pairwise.sublist (List.filter_sublist _) (sortByKey_sorted _)
  · have hperm := List.Perm.filter (fun r => r.resultType != InternalTektonResultType)
      (sortByKey_perm (rs.filter (fun r => r != emptyRunResult)))
    rw [filter_filter'] at hperm
    exact hperm

set_option maxRecDepth 100000 in
/-- C8 witness: at the pinned `test result with pipeline result` message, the
stored-back message is the ascending-key re-serialization with the legacy and
unrecognized records kept. -/
theorem C8_message_rewrite_witness :
    ∃ l, (buildStepState [] false {} fixtureBarStatus).step.state.terminated.map
        (fun nt => nt.message) = some (createMessageFromResults l) ∧
      List.Pairwise keyLE l ∧
      l.Perm ([⟨"resultName", "resultValue", "", 1⟩,
               ⟨"digest", "sha256:1234", "source-image", 0⟩].filter (fun r =>
        (r.resultType != InternalTektonResultType) && (r != emptyRunResult))) :=
  C8_message_rewrite {} fixtureBarStatus { exitCode := 0, message := barMsg }
    [⟨"resultName", "resultValue", "", 1⟩, ⟨"digest", "sha256:1234", "source-image", 0⟩]
    rfl (by decide) (by decide)

set_option maxRecDepth 100000 in
/-- C8 counterexample (as the claim stands): the pinned malformed-record
message decodes as an array holding one zero-valued record of unrecognized
shape; the claim's re-serialization of that array with only internal-only
records stripped is nonempty, but the engine erases the record and stores the
empty message — the unrecognized object is not preserved. -/
theorem C8_counterexample :
    (buildStepState [] false {} fixturePineappleStatus).step.state.terminated.map
        (fun nt => nt.message) = some "" ∧
    parseMessageRaw pineappleMsg = some [emptyRunResult] ∧
    createMessageFromResults
        (sortByKey ([emptyRunResult].filter (fun r => r.resultType != InternalTektonResultType))) =
      "[\x7b\"key\":\"\",\"value\":\"\"\x7d]" ∧
    (some "" : Option String) ≠ some "[\x7b\"key\":\"\",\"value\":\"\"\x7d]" :=
  ⟨by decide, by decide, by decide, by decide⟩

theorem MakeTaskRunStatus_ok (flags : FeatureFlags) (stream : String) (tr : TaskRun)
    (pod : Pod) (ts : TaskSpec) (st : TaskRunStatus) (errs : List StatusError)
    (hok : MakeTaskRunStatus flags stream tr pod ts = .ok (st, errs)) :
    ∃ o, setTaskRunStatusBasedOnStepStatus flags stream ts
          (conditionTerminal (synthesizedCondition tr pod).condition)
          ((sortedPod pod).containerStatuses.filter (fun s => IsContainerStep s.name)) = .ok o ∧
      st = { synthesizedCondition tr pod with
              podName := (sortedPod pod).name,
              steps := o.steps,
              sidecars := ((sortedPod pod).containerStatuses.filter
                  (fun s => isContainerSidecar s.name)).map
                (fun s => SidecarState.mk s.state (trimSidecarPre s.name) s.name s.imageID),
              results := removeDuplicateResults
                ((synthesizedCondition tr pod).results ++ o.taskResults) } ∧
      errs = o.errors := by
  simp only [MakeTaskRunStatus] at hok
  cases hset : setTaskRunStatusBasedOnStepStatus flags stream ts
      (conditionTerminal (synthesizedCondition tr pod).condition)
      ((sortedPod pod).containerStatuses.filter (fun s => IsContainerStep s.name)) with
  | error e => rw [hset] at hok; cases hok
  | ok o =>
      rw [hset] at hok
      cases hok
      exact ⟨o, rfl, rfl, rfl⟩

theorem markStatusRunning_completionTimeSet (trs : TaskRunStatus) (r m : String) :
    (markStatusRunning trs r m).completionTimeSet = trs.completionTimeSet := rfl

theorem updateIncomplete_completionTimeSet (trs : TaskRunStatus) (pod : Pod) :
    (updateIncompleteTaskRunStatus trs pod).completionTimeSet = trs.completionTimeSet := by
  unfold updateIncompleteTaskRunStatus
  obtain ⟨nm, cs, ics, ph, msg, rsn, conds, css, icss⟩ := pod
  cases ph <;> first | rfl | (split_ifs <;> rfl)

theorem updateIncomplete_results (trs : TaskRunStatus) (pod : Pod) :
    (updateIncompleteTaskRunStatus trs pod).results = trs.results := by
  unfold updateIncompleteTaskRunStatus
  obtain ⟨nm, cs, ics, ph, msg, rsn, conds, css, icss⟩ := pod
  cases ph <;> first | rfl | (split_ifs <;> rfl)

theorem initialCondition_completionTimeSet (tr : TaskRun)
    (hct : tr.status.completionTimeSet = false) :
    (initialCondition tr).completionTimeSet = false := by
  unfold initialCondition
  split_ifs <;> simp [markStatusRunning, hct]

theorem updateCompleted_completionTimeSet (trs : TaskRunStatus) (pod : Pod) (onE : Bool)
    (h : trs.completionTimeSet = false) :
    (updateCompletedTaskRunStatus trs pod onE).completionTimeSet =
      conditionTerminal (updateCompletedTaskRunStatus trs pod onE).condition := by
  by_cases hf : DidTaskRunFail pod = true
  · simp [updateCompletedTaskRunStatus, hf, markStatusFailure, conditionTerminal]
  · by_cases hd : sidecarsDone pod.containerStatuses = true
    · simp [updateCompletedTaskRunStatus, hf, hd, markStatusSuccess, conditionTerminal]
    · simp [updateCompletedTaskRunStatus, hf, hd, markStatusRunning, conditionTerminal, h]

theorem synthesizedCondition_completionTimeSet (tr : TaskRun) (pod : Pod)
    (hct : tr.status.completionTimeSet = false) :
    (synthesizedCondition tr pod).completionTimeSet =
      (podComplete (sortedPod pod) &&
        conditionTerminal (synthesizedCondition tr pod).condition) := by
  have h1 := initialCondition_completionTimeSet tr hct
  by_cases hcomp : podComplete (sortedPod pod) = true
  · have hs : synthesizedCondition tr pod =
        updateCompletedTaskRunStatus (initialCondition tr) (sortedPod pod)
          tr.onErrorContinue := by
      simp [synthesizedCondition, hcomp]
    rw [hs, hcomp, Bool.true_and]
    exact updateCompleted_completionTimeSet _ _ _ h1
  · have hcomp' : podComplete (sortedPod pod) = false := by simpa using hcomp
    have hs : synthesizedCondition tr pod =
        updateIncompleteTaskRunStatus (initialCondition tr) (sortedPod pod) := by
      simp [synthesizedCondition, hcomp']
    rw [hs, hcomp', Bool.false_and, updateIncomplete_completionTimeSet]
    exact h1

/-- C5 (amended): the completion timestamp is set exactly when the synthesized
condition is terminal *and* the pod itself is complete (terminal phase, all
steps terminated, or an OOM-killed step); a terminal Failed condition
synthesized on the incomplete path — the container-config error during a
Pending phase — leaves it unset. -/
theorem C5_completion_time (flags : FeatureFlags) (stream : String) (tr : TaskRun)
    (pod : Pod) (ts : TaskSpec) (st : TaskRunStatus) (errs : List StatusError)
    (hct : tr.status.completionTimeSet = false)
    (hok : MakeTaskRunStatus flags stream tr pod ts = .ok (st, errs)) :
    st.completionTimeSet = true ↔
      (conditionTerminal st.condition = true ∧ podComplete (sortedPod pod) = true) := by
  obtain ⟨o, -, hst, -⟩ := MakeTaskRunStatus_ok flags stream tr pod ts st errs hok
  have hcond : st.condition = (synthesizedCondition tr pod).condition := by rw [hst]
  have hcts : st.completionTimeSet = (synthesizedCondition tr pod).completionTimeSet := by
    rw [hst]
  rw [hcond, hcts, synthesizedCondition_completionTimeSet tr pod hct]
  cases h1 : podComplete (sortedPod pod) <;>
    cases h2 : conditionTerminal (synthesizedCondition tr pod).condition <;> simp

set_option maxRecDepth 100000 in
/-- C5 counterexample (as the claim stands): at the pinned
`pending-CreateContainerConfigError` pod the synthesized condition is the
terminal Failed config-error condition, yet the completion timestamp is left
unset. -/
theorem C5_counterexample :
    ∃ st errs, MakeTaskRunStatus {} "" {} fixturePodConfigError {} = .ok (st, errs) ∧
      st.condition = some ⟨.cfalse, "CreateContainerConfigError",
        "Failed to create pod due to config error"⟩ ∧
      conditionTerminal st.condition = true ∧
      st.completionTimeSet = false :=
  ⟨_, _, rfl, by decide, by decide, by decide⟩

set_option maxRecDepth 100000 in
/-- C5 witness: at the pinned `success` pod the amended equivalence holds with
both sides true. -/
theorem C5_completion_time_witness :
    ∃ st errs, MakeTaskRunStatus {} "" {} fixturePodSuccess {} = .ok (st, errs) ∧
      (st.completionTimeSet = true ↔
        (conditionTerminal st.condition = true ∧
          podComplete (sortedPod fixturePodSuccess) = true)) :=
  ⟨_, _, rfl, C5_completion_time {} "" {} fixturePodSuccess {} _ _ rfl rfl⟩

theorem getLast?_mem : ∀ {l : List α} {a : α}, l.getLast? = some a → a ∈ l := by
  intro l
  induction l with
  | nil => intro a h; cases h
  | cons b l ih =>
      intro a h
      cases l with
      | nil =>
          simp only [List.getLast?_singleton, Option.some.injEq] at h
          subst h
          exact List.mem_cons_self _ _
      | cons c l2 =>
          rw [List.getLast?_cons_cons] at h
          exact List.mem_cons_of_mem _ (ih h)

theorem lookupStatus_mem {statuses : List ContainerStatus} {n : String} {s : ContainerStatus}
    (h : lookupStatus statuses n = some s) : s ∈ statuses :=
  (List.mem_filter.mp (getLast?_mem h)).1

theorem lookupStatus_name {statuses : List ContainerStatus} {n : String} {s : ContainerStatus}
    (h : lookupStatus statuses n = some s) : s.name = n := by
  have := (List.mem_filter.mp (getLast?_mem h)).2
  simpa using this

theorem sortPodContainerStatuses_mem {obs : List ContainerStatus} {decl : List String}
    {s : ContainerStatus} (h : s ∈ sortPodContainerStatuses obs decl) : s ∈ obs := by
  unfold sortPodContainerStatuses at h
  rcases List.mem_append.mp h with h | h
  · obtain ⟨n, -, hn⟩ := List.mem_filterMap.mp h
    exact lookupStatus_mem hn
  · exact List.mem_of_mem_drop h

theorem sortPodContainerStatuses_ne_nil {obs : List ContainerStatus} {decl : List String}
    (h : obs ≠ []) : sortPodContainerStatuses obs decl ≠ [] := by
  unfold sortPodContainerStatuses
  cases hm : decl.filterMap (lookupStatus obs) with
  | nil => simpa using h
  | cons a l => simp

/-- C4 (amended): when every step has terminated successfully (pod still
Running), the condition is Succeeded exactly when every sidecar is Terminated
or Ready-and-Running; while some sidecar is Waiting, not yet started, or
Running-but-not-Ready, it stays Running.  A Terminated sidecar passes the
gate regardless of its readiness flag. -/
theorem C4_sidecar_gate (flags : FeatureFlags) (stream : String) (tr : TaskRun)
    (pod : Pod) (ts : TaskSpec) (st : TaskRunStatus) (errs : List StatusError)
    (hok : MakeTaskRunStatus flags stream tr pod ts = .ok (st, errs))
    (hphase : pod.phase = .running)
    (hne : pod.containerStatuses ≠ [])
    (hsteps : ∀ s ∈ pod.containerStatuses, IsContainerStep s.name = true →
        ∃ t, s.state.terminated = some t ∧ t.exitCode = 0 ∧ t.reason ≠ "OOMKilled") :
    (sidecarsDone (sortedPod pod).containerStatuses = true →
        st.condition = some ⟨.ctrue, "Succeeded", "All Steps have completed executing"⟩) ∧
    (sidecarsDone (sortedPod pod).containerStatuses = false →
        st.condition = some ⟨.cunknown, "Running",
          "Not all Steps in the Task have finished executing"⟩) := by
  obtain ⟨o, -, hst, -⟩ := MakeTaskRunStatus_ok flags stream tr pod ts st errs hok
  have hcond : st.condition = (synthesizedCondition tr pod).condition := by rw [hst]
  have hphaseS : (sortedPod pod).phase = .running := hphase
  have hmemS : ∀ s ∈ (sortedPod pod).containerStatuses, s ∈ pod.containerStatuses :=
    fun s hs => sortPodContainerStatuses_mem hs
  have hcomp : podComplete (sortedPod pod) = true := by
    have hsc : areStepsComplete (sortedPod pod) = true := by
      unfold areStepsComplete
      have h1 : (sortedPod pod).containerStatuses.isEmpty = false := by
        have := @sortPodContainerStatuses_ne_nil pod.containerStatuses pod.containers hne
        simpa [sortedPod, List.isEmpty_iff] using this
      have h2 : ((sortedPod pod).phase == PodPhase.running) = true := by
        rw [hphaseS]
        rfl
      have h3 : (sortedPod pod).containerStatuses.all
          (fun s => !IsContainerStep s.name || s.state.terminated.isSome) = true := by
        rw [List.all_eq_true]
        intro s hs
        cases hstep : IsContainerStep s.name with
        | false => simp
        | true =>
            obtain ⟨t, ht, -, -⟩ := hsteps s (hmemS s hs) hstep
            simp [ht]
      rw [h1, h2, h3]
      rfl
    unfold podComplete
    rw [hsc]
    rfl
  have hfail : DidTaskRunFail (sortedPod pod) = false := by
    unfold DidTaskRunFail
    have h1 : ((sortedPod pod).phase == PodPhase.failed) = false := by
      rw [hphaseS]
      rfl
    rw [h1]
    simp only [Bool.false_or]
    rw [List.any_eq_false]
    intro s hs
    cases hstep : IsContainerStep s.name with
    | false => simp
    | true =>
        obtain ⟨t, ht, hexit, hreason⟩ := hsteps s (hmemS s hs) hstep
        have hr : (t.reason == "OOMKilled") = false := by
          simpa using hreason
        simp [ht, hexit, hr]
  have hsynth : synthesizedCondition tr pod =
      updateCompletedTaskRunStatus (initialCondition tr) (sortedPod pod)
        tr.onErrorContinue := by
    simp [synthesizedCondition, hcomp]
  constructor
  · intro hsd
    rw [hcond, hsynth]
    simp [updateCompletedTaskRunStatus, hfail, hsd, markStatusSuccess, conditionTerminal]
  · intro hsd
    rw [hcond, hsynth]
    simp [updateCompletedTaskRunStatus, hfail, hsd, markStatusRunning, conditionTerminal]

set_option maxRecDepth 100000 in
/-- C4 counterexample (as the claim stands): a pod with one successfully
terminated step and one sidecar that is Terminated but not Ready is judged
Succeeded — the claim's "not Succeeded while any sidecar is
Terminated-but-not-Ready" does not hold. -/
theorem C4_counterexample :
    ∃ st errs, MakeTaskRunStatus {} "" {} fixturePodSidecarTerminated {} = .ok (st, errs) ∧
      st.condition = some ⟨.ctrue, "Succeeded", "All Steps have completed executing"⟩ ∧
      ∃ s, s ∈ fixturePodSidecarTerminated.containerStatuses ∧
        isContainerSidecar s.name = true ∧ s.state.terminated.isSome = true ∧
        s.ready = false :=
  ⟨_, _, rfl, by decide,
   ⟨{ name := "sidecar-b", ready := false,
      state := { terminated := some { exitCode := 99 } } },
    by decide, by decide, by decide, by decide⟩⟩

set_option maxRecDepth 100000 in
/-- C4 witness: at the pinned sidecar-not-completed pod, the gate blocks
success and the condition stays Running. -/
theorem C4_sidecar_gate_witness :
    ∃ st errs, MakeTaskRunStatus {} "" {} fixturePodSidecarWaiting {} = .ok (st, errs) ∧
      st.condition = some ⟨.cunknown, "Running",
        "Not all Steps in the Task have finished executing"⟩ := by
  refine ⟨_, _, rfl, ?_⟩
  refine (C4_sidecar_gate {} "" {} fixturePodSidecarWaiting {} _ _ rfl rfl (by decide)
      ?_).2 (by decide)
  intro s hs hstep
  rcases List.mem_cons.mp hs with rfl | hs2
  · exact ⟨{ exitCode := 0 }, rfl, rfl, by decide⟩
  · rcases List.mem_cons.mp hs2 with rfl | hs3
    · exact absurd hstep (by decide)
    · cases hs3

theorem buildStepState_parse_none (recs : List RunResult) (ul : Bool) (ts : TaskSpec)
    (s : ContainerStatus) (t : TerminatedState) (ht : s.state.terminated = some t)
    (hm : t.message ≠ "") (hp : parseMessage t.message = none) :
    buildStepState recs ul ts s =
      ⟨⟨s.state, trimStepPre s.name, s.name, s.imageID, [], ""⟩, [],
        [.terminationMessageNotJson s.name t.message], s⟩ := by
  have hm' : (t.message == "") = false := by simpa using hm
  unfold buildStepState
  simp [ht, hm', hp]

/-- C7: when some step's termination message fails to decode as a JSON record
array, the whole call still returns a complete best-effort status — every
classified step is present — paired with a non-empty aggregated decode error
list, and the failing step keeps its original message verbatim with zero
results. -/
theorem C7_decode_error_best_effort (flags : FeatureFlags) (stream : String) (tr : TaskRun)
    (pod : Pod) (ts : TaskSpec) (st : TaskRunStatus) (errs : List StatusError)
    (s : ContainerStatus) (t : TerminatedState)
    (hmethod : flags.resultExtractionMethod = .terminationMessage)
    (hok : MakeTaskRunStatus flags stream tr pod ts = .ok (st, errs))
    (hs : s ∈ (sortedPod pod).containerStatuses.filter (fun x => IsContainerStep x.name))
    (ht : s.state.terminated = some t) (hmsg : t.message ≠ "")
    (hp : parseMessage t.message = none) :
    errs ≠ [] ∧
    st.steps.length =
      ((sortedPod pod).containerStatuses.filter (fun x => IsContainerStep x.name)).length ∧
    ∃ step, step ∈ st.steps ∧ step.container = s.name ∧
      step.state.terminated = some t ∧ step.results = [] := by
  obtain ⟨o, hset, hst, herrs⟩ := MakeTaskRunStatus_ok flags stream tr pod ts st errs hok
  have hm0 : (flags.resultExtractionMethod == ResultExtractionMethod.sidecarLogs) = false := by
    rw [hmethod]
    rfl
  simp only [setTaskRunStatusBasedOnStepStatus, hm0, Bool.false_eq_true, if_false] at hset
  cases hset
  have hbuild := buildStepState_parse_none [] false ts s t ht hmsg hp
  refine ⟨?_, ?_, ?_⟩
  · rw [herrs]
    refine listFlat_ne_nil (List.mem_map_of_mem _ hs) ?_
    rw [hbuild]
    simp
  · rw [hst]
    simp
  · refine ⟨(buildStepState [] false ts s).step, ?_, ?_, ?_, ?_⟩
    · rw [hst]
      simpa using List.mem_map_of_mem (fun x => (buildStepState [] false ts x).step) hs
    · rw [hbuild]
    · rw [hbuild, ht]
    · rw [hbuild]

set_option maxRecDepth 100000 in
/-- C7 witness: at the pinned `TestMakeRunStatusJSONError` pod, the call
returns all four step states, the failing step keeps its non-JSON message
with zero results, and the aggregated error list is non-empty. -/
theorem C7_decode_error_best_effort_witness :
    ∃ st errs, MakeTaskRunStatus {} "" {} fixturePodJsonError {} = .ok (st, errs) ∧
      (errs ≠ [] ∧
       st.steps.length = ((sortedPod fixturePodJsonError).containerStatuses.filter
         (fun x => IsContainerStep x.name)).length ∧
       ∃ step, step ∈ st.steps ∧ step.container = "step-non-json" ∧
         step.state.terminated = some { exitCode := 1, message := nonJsonMsg } ∧
         step.results = []) :=
  ⟨_, _, rfl,
   C7_decode_error_best_effort {} "" {} fixturePodJsonError {} _ _
     { name := "step-non-json", imageID := "image",
       state := { terminated := some { exitCode := 1, message := nonJsonMsg } } }
     { exitCode := 1, message := nonJsonMsg }
     rfl rfl (by decide) rfl (by decide) (by decide)⟩

theorem perm_eq_of_length_le_one {l1 l2 : List α} (h : l1.Perm l2) (hl : l1.length ≤ 1) :
    l1 = l2 := by
  cases l1 with
  | nil => exact (h.symm.eq_nil).symm
  | cons a l =>
      cases l with
      | nil => exact (List.perm_singleton.mp h.symm).symm
      | cons b l2 => simp at hl

theorem filter_name_length_le_one {obs : List ContainerStatus} {n : String}
    (h : (obs.map (fun s => s.name)).Nodup) :
    (obs.filter (fun s => s.name == n)).length ≤ 1 := by
  rw [← List.countP_eq_length_filter]
  have h2 : obs.countP (fun s => s.name == n) =
      (obs.map (fun s => s.name)).countP (fun m => m == n) := by
    rw [List.countP_map]
    rfl
  rw [h2, ← List.count_eq_countP]
  exact List.nodup_iff_count_le_one.mp h n

theorem lookupStatus_perm {obs1 obs2 : List ContainerStatus} (hperm : obs1.Perm obs2)
    (h : (obs2.map (fun s => s.name)).Nodup) (n : String) :
    lookupStatus obs1 n = lookupStatus obs2 n := by
  unfold lookupStatus
  have hp := hperm.filter (fun s => s.name == n)
  rw [perm_eq_of_length_le_one hp.symm (filter_name_length_le_one h)]

theorem matched_map_name (obs : List ContainerStatus) (decl : List String) :
    (decl.filterMap (lookupStatus obs)).map (fun s => s.name) =
      decl.filter (fun n => (lookupStatus obs n).isSome) := by
  induction decl with
  | nil => rfl
  | cons d l ih =>
      cases hd : lookupStatus obs d with
      | none => simp [List.filterMap_cons, hd, ih, List.filter_cons]
      | some s =>
          have hn := lookupStatus_name hd
          simp [List.filterMap_cons, hd, hn, ih, List.filter_cons]

theorem lookupStatus_isSome_iff {obs : List ContainerStatus} {n : String} :
    (lookupStatus obs n).isSome = true ↔ n ∈ obs.map (fun s => s.name) := by
  unfold lookupStatus
  rw [List.getLast?_isSome]
  constructor
  · intro h
    obtain ⟨s, hs⟩ := List.exists_mem_of_ne_nil _ h
    have hm := List.mem_filter.mp hs
    exact List.mem_map.mpr ⟨s, hm.1, by simpa using hm.2⟩
  · intro h hnil
    obtain ⟨s, hs, hn⟩ := List.mem_map.mp h
    have : s ∈ obs.filter (fun s => s.name == n) :=
      List.mem_filter.mpr ⟨hs, by simp [hn]⟩
    rw [hnil] at this
    cases this

theorem matched_length_eq {obs : List ContainerStatus} {decl : List String}
    (hnObs : (obs.map (fun s => s.name)).Nodup) (hnDecl : decl.Nodup)
    (hsub : ∀ s ∈ obs, s.name ∈ decl) :
    (decl.filterMap (lookupStatus obs)).length = obs.length := by
  have h1 : (decl.filterMap (lookupStatus obs)).length
      = (decl.filter (fun n => (lookupStatus obs n).isSome)).length := by
    rw [← matched_map_name, List.length_map]
  rw [h1]
  have hperm : (decl.filter (fun n => (lookupStatus obs n).isSome)).Perm
      (obs.map (fun s => s.name)) := by
    rw [List.perm_ext_iff_of_nodup (hnDecl.filter _) hnObs]
    intro a
    rw [List.mem_filter]
    constructor
    · rintro ⟨-, ha⟩
      exact lookupStatus_isSome_iff.mp ha
    · intro ha
      refine ⟨?_, lookupStatus_isSome_iff.mpr ha⟩
      obtain ⟨s, hs, hn⟩ := List.mem_map.mp ha
      exact hn ▸ hsub s hs
  rw [hperm.length_eq, List.length_map]

theorem sortPodContainerStatuses_perm_eq {obs1 obs2 : List ContainerStatus}
    {decl : List String} (hperm : obs1.Perm obs2)
    (hnObs : (obs2.map (fun s => s.name)).Nodup) (hnDecl : decl.Nodup)
    (hsub : ∀ s ∈ obs2, s.name ∈ decl) :
    sortPodContainerStatuses obs1 decl = sortPodContainerStatuses obs2 decl := by
  simp only [sortPodContainerStatuses]
  rw [List.filterMap_congr (fun n _ => lookupStatus_perm hperm hnObs n)]
  have hlen := matched_length_eq hnObs hnDecl hsub
  have d1 : obs1.drop (decl.filterMap (lookupStatus obs2)).length = [] := by
    rw [hlen, ← hperm.length_eq, List.drop_length]
  have d2 : obs2.drop (decl.filterMap (lookupStatus obs2)).length = [] := by
    rw [hlen, List.drop_length]
  rw [d1, d2]

theorem sortPodContainerStatuses_all_matched {obs : List ContainerStatus}
    {decl : List String} (hnObs : (obs.map (fun s => s.name)).Nodup)
    (hnDecl : decl.Nodup) (hsub : ∀ s ∈ obs, s.name ∈ decl) :
    sortPodContainerStatuses obs decl = decl.filterMap (lookupStatus obs) := by
  simp only [sortPodContainerStatuses]
  rw [matched_length_eq hnObs hnDecl hsub, List.drop_length, List.append_nil]

theorem setTask_ok_steps {flags : FeatureFlags} {stream : String} {ts : TaskSpec}
    {isDone : Bool} {stepSts : List ContainerStatus} {o : StepStatusOutcome}
    (h : setTaskRunStatusBasedOnStepStatus flags stream ts isDone stepSts = .ok o) :
    ∃ recs ul, o.steps = stepSts.map (fun s => (buildStepState recs ul ts s).step) := by
  simp only [setTaskRunStatusBasedOnStepStatus] at h
  cases hfetch : (if (flags.resultExtractionMethod == ResultExtractionMethod.sidecarLogs) = true
      then GetResultsFromSidecarLogs flags.maxResultSize stream else Except.ok []) with
  | error e => rw [hfetch] at h; cases h
  | ok recs =>
      rw [hfetch] at h
      cases h
      exact ⟨recs, flags.resultExtractionMethod == ResultExtractionMethod.sidecarLogs, by
        simp⟩

/-- C1 (amended): when container names are unique and every observed status
has a declared counterpart, the synthesized status is invariant under any
permutation of the observed list and lists step (and sidecar) states in
exactly the declared order, restricted to declared names with an observed
status.  The omission clause fails in general: an observed status with no
declared counterpart is retained, not omitted (see the counterexample). -/
theorem C1_order_invariance (flags : FeatureFlags) (stream : String) (tr : TaskRun)
    (pod : Pod) (ts : TaskSpec) (obs2 : List ContainerStatus)
    (hnObs : (pod.containerStatuses.map (fun s => s.name)).Nodup)
    (hnDecl : pod.containers.Nodup)
    (hsub : ∀ s ∈ pod.containerStatuses, s.name ∈ pod.containers)
    (hperm : obs2.Perm pod.containerStatuses) :
    MakeTaskRunStatus flags stream tr { pod with containerStatuses := obs2 } ts
      = MakeTaskRunStatus flags stream tr pod ts ∧
    ∀ st errs, MakeTaskRunStatus flags stream tr pod ts = .ok (st, errs) →
      st.steps.map (fun x => x.container) =
        pod.containers.filter (fun n =>
          IsContainerStep n && (lookupStatus pod.containerStatuses n).isSome) ∧
      st.sidecars.map (fun x => x.container) =
        pod.containers.filter (fun n =>
          isContainerSidecar n && (lookupStatus pod.containerStatuses n).isSome) := by
  have heq : sortPodContainerStatuses obs2 pod.containers
      = sortPodContainerStatuses pod.containerStatuses pod.containers :=
    sortPodContainerStatuses_perm_eq hperm hnObs hnDecl hsub
  have hsorted : (sortedPod pod).containerStatuses
      = pod.containers.filterMap (lookupStatus pod.containerStatuses) :=
    sortPodContainerStatuses_all_matched hnObs hnDecl hsub
  constructor
  · have hpods : sortedPod { pod with containerStatuses := obs2 } = sortedPod pod := by
      show ({ pod with
                containerStatuses := sortPodContainerStatuses obs2 pod.containers } : Pod)
        = { pod with
              containerStatuses :=
                sortPodContainerStatuses pod.containerStatuses pod.containers }
      rw [heq]
    simp only [MakeTaskRunStatus, synthesizedCondition, hpods]
  · intro st errs hok
    obtain ⟨o, hset, hst, -⟩ := MakeTaskRunStatus_ok flags stream tr pod ts st errs hok
    obtain ⟨recs, ul, ho⟩ := setTask_ok_steps hset
    constructor
    · have hsteps : st.steps = o.steps := by rw [hst]
      rw [hsteps, ho, List.map_map]
      have hmc : ∀ s ∈ (sortedPod pod).containerStatuses.filter
            (fun s => IsContainerStep s.name),
          ((fun (x : StepState) => x.container) ∘
            fun s => (buildStepState recs ul ts s).step) s = s.name :=
        fun s _ => buildStepState_container recs ul ts s
      rw [List.map_congr_left hmc]
      rw [hsorted]
      rw [map_filter_comm (fun (s : ContainerStatus) => s.name) IsContainerStep]
      rw [matched_map_name, filter_filter']
    · have hside : st.sidecars =
          ((sortedPod pod).containerStatuses.filter
            (fun s => isContainerSidecar s.name)).map (fun s =>
              SidecarState.mk s.state (trimSidecarPre s.name) s.name s.imageID) := by
        rw [hst]
      rw [hside, List.map_map]
      have hc : ((fun (x : SidecarState) => x.container) ∘ fun (s : ContainerStatus) =>
          SidecarState.mk s.state (trimSidecarPre s.name) s.name s.imageID)
          = fun (s : ContainerStatus) => s.name := rfl
      rw [hc, hsorted]
      rw [map_filter_comm (fun (s : ContainerStatus) => s.name) isContainerSidecar]
      rw [matched_map_name, filter_filter']

set_option maxRecDepth 100000 in
/-- C1 counterexample (as the claim stands): a pod declaring no containers
still yields a step state for the undeclared observed status `step-foo` — an
observed entry with no declared counterpart is retained, not omitted. -/
theorem C1_counterexample :
    fixturePodUndeclared.containers = [] ∧
    ∃ st errs, MakeTaskRunStatus {} "" {} fixturePodUndeclared {} = .ok (st, errs) ∧
      st.steps.map (fun x => x.container) = ["step-foo"] :=
  ⟨rfl, _, _, rfl, by decide⟩

set_option maxRecDepth 100000 in
/-- C1 witness: at the pinned step-order pod (declared order with the bare
`step-` name and a sidecar) and a permutation of its observed statuses, the
output is unchanged and the step/sidecar order is the declared one. -/
theorem C1_order_invariance_witness :
    MakeTaskRunStatus {} "" {} { fixturePodOrder with containerStatuses := fixtureOrderObsPerm } {}
      = MakeTaskRunStatus {} "" {} fixturePodOrder {} ∧
    ∀ st errs, MakeTaskRunStatus {} "" {} fixturePodOrder {} = .ok (st, errs) →
      st.steps.map (fun x => x.container) =
        fixturePodOrder.containers.filter (fun n =>
          IsContainerStep n && (lookupStatus fixturePodOrder.containerStatuses n).isSome) ∧
      st.sidecars.map (fun x => x.container) =
        fixturePodOrder.containers.filter (fun n =>
          isContainerSidecar n && (lookupStatus fixturePodOrder.containerStatuses n).isSome) :=
  C1_order_invariance {} "" {} fixturePodOrder {} fixtureOrderObsPerm
    (by decide) (by decide) (by decide) (by decide)

end Pipeline
